import Mathlib

set_option linter.dupNamespace false

/-!
# f-PIRLS engine (`src/Regression/Include/FPIRLS.h`) and its R entry points

Shallow embedding of the exponential-family strategy layer of the f-PIRLS
engine, of the family constructors, of the iteration driver and of the GAM
preparation step.  The C++ type `Real` (a `double`) is read as the
mathematical real line `ℝ`; `log` and `exp` are `Real.log` and `Real.exp`.
Rounding, overflow and underflow of `double` arithmetic are not modelled: a
statement below is about the real functions the bodies denote, and is a
statement about the compiled code only where it says so or where both sides
are the same expression.  A family function below is the body of the inline
member function of the same name, with the C++ operator precedence made
explicit by parentheses.  The header only declares the member functions of the
driver classes; where a body is needed it is modelled from the specification,
and the doc comment of the definition says so.  The entry points of
`src/Regression/Source/Rfun_Regression_Laplace.cpp` are embedded as functions
of the three integers their dispatch tests, `regressionData.getOrder()`,
`mydim` and `ndim`, returning which call or which nil value is returned.
-/

/-! ## Bernoulli family (`FPIRLS_Bernoulli`, lines 254-262) -/

namespace FPIRLS_Bernoulli

/-- Body of `link`: `log(mu/(1 - mu))`. -/
noncomputable def link (mu : ℝ) : ℝ := Real.log (mu / (1 - mu))

/-- Body of `inv_link`: `1/(1 + exp(-theta))`. -/
noncomputable def inv_link (theta : ℝ) : ℝ := 1 / (1 + Real.exp (-theta))

/-- Body of `link_deriv`: `1/(mu*(1-mu))`. -/
noncomputable def link_deriv (mu : ℝ) : ℝ := 1 / (mu * (1 - mu))

/-- Body of `var_function`: `mu*(1-mu)`. -/
def var_function (mu : ℝ) : ℝ := mu * (1 - mu)

/-- Body of `dev_function`: `(x == 0) ? 2*log(1/(1-mu)) : 2*log(1/mu)`. -/
noncomputable def dev_function (mu x : ℝ) : ℝ :=
  if x = 0 then 2 * Real.log (1 / (1 - mu)) else 2 * Real.log (1 / mu)

end FPIRLS_Bernoulli

/-! ## Poisson family (`FPIRLS_Poisson`, lines 281-289) -/

namespace FPIRLS_Poisson

/-- Body of `link`: `log(mu)`. -/
noncomputable def link (mu : ℝ) : ℝ := Real.log mu

/-- Body of `link_deriv`: `1/mu`. -/
noncomputable def link_deriv (mu : ℝ) : ℝ := 1 / mu

/-- Body of `inv_link`: `exp(theta)`. -/
noncomputable def inv_link (theta : ℝ) : ℝ := Real.exp theta

/-- Body of `var_function`: `mu`. -/
def var_function (mu : ℝ) : ℝ := mu

/-- Body of `dev_function`: `(x>0) ? x*log(x/mu) - (x-mu) : mu`. -/
noncomputable def dev_function (mu x : ℝ) : ℝ :=
  if x > 0 then x * Real.log (x / mu) - (x - mu) else mu

end FPIRLS_Poisson

/-! ## Exponential family (`FPIRLS_Exponential`, lines 309-317) -/

namespace FPIRLS_Exponential

/-- Body of `link`: `-1/mu`, the unary minus binding tighter than `/`. -/
noncomputable def link (mu : ℝ) : ℝ := (-1) / mu

/-- Body of `link_deriv`: `1/(mu*mu)`. -/
noncomputable def link_deriv (mu : ℝ) : ℝ := 1 / (mu * mu)

/-- Body of `inv_link`: `- 1/theta`, the unary minus binding tighter than `/`. -/
noncomputable def inv_link (theta : ℝ) : ℝ := (-1) / theta

/-- Body of `var_function`: `mu*mu`. -/
def var_function (mu : ℝ) : ℝ := mu * mu

/-- Body of `dev_function`: `2*(((x-mu)/mu)-log(x/mu))`. -/
noncomputable def dev_function (mu x : ℝ) : ℝ :=
  2 * (((x - mu) / mu) - Real.log (x / mu))

end FPIRLS_Exponential

/-! ## Gamma family (`FPIRLS_Gamma`, lines 338-346) -/

namespace FPIRLS_Gamma

/-- Body of `link`: `- 1/mu`, the unary minus binding tighter than `/`. -/
noncomputable def link (mu : ℝ) : ℝ := (-1) / mu

/-- Body of `link_deriv`: `1/(mu*mu)`. -/
noncomputable def link_deriv (mu : ℝ) : ℝ := 1 / (mu * mu)

/-- Body of `inv_link`: `- 1/theta`, the unary minus binding tighter than `/`. -/
noncomputable def inv_link (theta : ℝ) : ℝ := (-1) / theta

/-- Body of `var_function`: `mu*mu`. -/
def var_function (mu : ℝ) : ℝ := mu * mu

/-- Body of `dev_function`: `2*(((x-mu)/mu)-log(x/mu))`. -/
noncomputable def dev_function (mu x : ℝ) : ℝ :=
  2 * (((x - mu) / mu) - Real.log (x / mu))

end FPIRLS_Gamma

/-! ## Family constructors (`FPIRLS.h`, lines 266-355) -/

/-- Arguments handed to the `FPIRLS_GAM` base-class constructor (its two
overloads, lines 228-234).  `mesh_time` is `none` for the overload without a
time mesh.  The mesh, input-data and optimization-data types are external
collaborators and stay abstract. -/
structure FPIRLS_GAM_args (Mesh Input Opt : Type) where
  mesh : Mesh
  mesh_time : Option (List ℝ)
  inputData : Input
  optimizationData : Opt
  mu0 : List ℝ
  scale_parameter_flag : Bool
  scale_param : ℝ

/-- Constructor `FPIRLS_Bernoulli(mesh, inputData, optimizationData, mu0)`:
forwards `mu0, false, 1` to `FPIRLS_GAM` (lines 266-267). -/
def FPIRLS_Bernoulli.FPIRLS_Bernoulli {Mesh Input Opt : Type} (mesh : Mesh)
    (inputData : Input) (optimizationData : Opt) (mu0 : List ℝ) :
    FPIRLS_GAM_args Mesh Input Opt :=
  ⟨mesh, none, inputData, optimizationData, mu0, false, 1⟩

/-- Constructor `FPIRLS_Bernoulli(mesh, mesh_time, inputData, optimizationData, mu0)`
(lines 269-271). -/
def FPIRLS_Bernoulli.FPIRLS_Bernoulli_time {Mesh Input Opt : Type} (mesh : Mesh)
    (mesh_time : List ℝ) (inputData : Input) (optimizationData : Opt) (mu0 : List ℝ) :
    FPIRLS_GAM_args Mesh Input Opt :=
  ⟨mesh, some mesh_time, inputData, optimizationData, mu0, false, 1⟩

/-- Constructor `FPIRLS_Poisson(mesh, inputData, optimizationData, mu0)`
(lines 293-294). -/
def FPIRLS_Poisson.FPIRLS_Poisson {Mesh Input Opt : Type} (mesh : Mesh)
    (inputData : Input) (optimizationData : Opt) (mu0 : List ℝ) :
    FPIRLS_GAM_args Mesh Input Opt :=
  ⟨mesh, none, inputData, optimizationData, mu0, false, 1⟩

/-- Constructor `FPIRLS_Poisson(mesh, mesh_time, inputData, optimizationData, mu0)`
(lines 296-298). -/
def FPIRLS_Poisson.FPIRLS_Poisson_time {Mesh Input Opt : Type} (mesh : Mesh)
    (mesh_time : List ℝ) (inputData : Input) (optimizationData : Opt) (mu0 : List ℝ) :
    FPIRLS_GAM_args Mesh Input Opt :=
  ⟨mesh, some mesh_time, inputData, optimizationData, mu0, false, 1⟩

/-- Constructor `FPIRLS_Exponential(mesh, inputData, optimizationData, mu0)`
(lines 321-322). -/
def FPIRLS_Exponential.FPIRLS_Exponential {Mesh Input Opt : Type} (mesh : Mesh)
    (inputData : Input) (optimizationData : Opt) (mu0 : List ℝ) :
    FPIRLS_GAM_args Mesh Input Opt :=
  ⟨mesh, none, inputData, optimizationData, mu0, false, 1⟩

/-- Constructor `FPIRLS_Exponential(mesh, mesh_time, inputData, optimizationData, mu0)`
(lines 324-326). -/
def FPIRLS_Exponential.FPIRLS_Exponential_time {Mesh Input Opt : Type} (mesh : Mesh)
    (mesh_time : List ℝ) (inputData : Input) (optimizationData : Opt) (mu0 : List ℝ) :
    FPIRLS_GAM_args Mesh Input Opt :=
  ⟨mesh, some mesh_time, inputData, optimizationData, mu0, false, 1⟩

/-- Constructor `FPIRLS_Gamma(mesh, inputData, optimizationData, mu0,
scale_parameter_flag, scale_param)` (lines 350-351). -/
def FPIRLS_Gamma.FPIRLS_Gamma {Mesh Input Opt : Type} (mesh : Mesh)
    (inputData : Input) (optimizationData : Opt) (mu0 : List ℝ)
    (scale_parameter_flag : Bool) (scale_param : ℝ) :
    FPIRLS_GAM_args Mesh Input Opt :=
  ⟨mesh, none, inputData, optimizationData, mu0, scale_parameter_flag, scale_param⟩

/-- Constructor `FPIRLS_Gamma(mesh, mesh_time, inputData, optimizationData, mu0,
scale_parameter_flag, scale_param)` (lines 353-355). -/
def FPIRLS_Gamma.FPIRLS_Gamma_time {Mesh Input Opt : Type} (mesh : Mesh)
    (mesh_time : List ℝ) (inputData : Input) (optimizationData : Opt) (mu0 : List ℝ)
    (scale_parameter_flag : Bool) (scale_param : ℝ) :
    FPIRLS_GAM_args Mesh Input Opt :=
  ⟨mesh, some mesh_time, inputData, optimizationData, mu0, scale_parameter_flag, scale_param⟩

/-! ## GAM driver, Step 1 (`FPIRLS_GAM`, lines 173-223) -/

/-- The five pure virtual family functions of `FPIRLS_GAM` (lines 215-223). -/
structure FPIRLS_GAM_family where
  link : ℝ → ℝ
  link_deriv : ℝ → ℝ
  inv_link : ℝ → ℝ
  var_function : ℝ → ℝ
  dev_function : ℝ → ℝ → ℝ

/-- The overrides of `FPIRLS_Bernoulli`. -/
noncomputable def FPIRLS_Bernoulli.family : FPIRLS_GAM_family :=
  ⟨FPIRLS_Bernoulli.link, FPIRLS_Bernoulli.link_deriv, FPIRLS_Bernoulli.inv_link,
    FPIRLS_Bernoulli.var_function, FPIRLS_Bernoulli.dev_function⟩

/-- The overrides of `FPIRLS_Poisson`. -/
noncomputable def FPIRLS_Poisson.family : FPIRLS_GAM_family :=
  ⟨FPIRLS_Poisson.link, FPIRLS_Poisson.link_deriv, FPIRLS_Poisson.inv_link,
    FPIRLS_Poisson.var_function, FPIRLS_Poisson.dev_function⟩

/-- The overrides of `FPIRLS_Exponential`. -/
noncomputable def FPIRLS_Exponential.family : FPIRLS_GAM_family :=
  ⟨FPIRLS_Exponential.link, FPIRLS_Exponential.link_deriv, FPIRLS_Exponential.inv_link,
    FPIRLS_Exponential.var_function, FPIRLS_Exponential.dev_function⟩

/-- The overrides of `FPIRLS_Gamma`. -/
noncomputable def FPIRLS_Gamma.family : FPIRLS_GAM_family :=
  ⟨FPIRLS_Gamma.link, FPIRLS_Gamma.link_deriv, FPIRLS_Gamma.inv_link,
    FPIRLS_Gamma.var_function, FPIRLS_Gamma.dev_function⟩

/-- The per-grid-point vectors of `FPIRLS_GAM` (fields `mu_`, `G_`,
`pseudoObservations_`, `WeightsMatrix_`, lines 173-177), at one grid point. -/
structure FPIRLS_GAM_state where
  mu_ : List ℝ
  G_ : List ℝ
  pseudoObservations_ : List ℝ
  WeightsMatrix_ : List ℝ

namespace FPIRLS_GAM

/-- Modelled from the spec: the body of `compute_G` is not in the header; the
spec (4.3) gives `G = link_deriv(mu)` per observation. -/
def compute_G (F : FPIRLS_GAM_family) (mu : List ℝ) : List ℝ :=
  (List.range mu.length).map (fun i => F.link_deriv (mu.getD i 0))

/-- Modelled from the spec: the body of `compute_pseudoObs` is not in the
header; the spec (4.3) gives `pseudoObs = link(mu) + G ⊙ (y - mu)`, entry by
entry, `y` being the observations. -/
def compute_pseudoObs (F : FPIRLS_GAM_family) (mu G y : List ℝ) : List ℝ :=
  (List.range mu.length).map
    (fun i => F.link (mu.getD i 0) + G.getD i 0 * (y.getD i 0 - mu.getD i 0))

/-- Modelled from the spec: the body of `compute_Weights` is not in the
header; the spec (4.3) gives `w = 1 / (G² · var_function(mu))`, entry by entry. -/
noncomputable def compute_Weights (F : FPIRLS_GAM_family) (mu G : List ℝ) : List ℝ :=
  (List.range mu.length).map
    (fun i => 1 / (G.getD i 0 ^ 2 * F.var_function (mu.getD i 0)))

/-- Modelled from the spec: the body of `prepare_weighted_regression` is not
in the header; the spec (4.3) has it compute `G`, then the pseudo-observations,
then the weights, from the current mean `mu` and the observations `y`. -/
noncomputable def prepare_weighted_regression (F : FPIRLS_GAM_family) (mu y : List ℝ) :
    FPIRLS_GAM_state :=
  let G := compute_G F mu
  ⟨mu, G, compute_pseudoObs F mu G y, compute_Weights F mu G⟩

end FPIRLS_GAM

/-! ## Iteration driver (`FPIRLS_Base`, lines 15-105) -/

/-- A grid-indexed container `std::vector<std::vector<T>>`: `c s t` reads
`c[s][t]`. -/
abbrev Grid (α : Type) := Nat → Nat → α

/-- The assignment `c[s][t] = v`. -/
def Grid.assign {α : Type} (c : Grid α) (s t : Nat) (v : α) : Grid α :=
  fun i j => if i = s ∧ j = t then v else c i j

/-- The members of `FPIRLS_Base` the stopping rule and the accessors read
(lines 25-40): grid sizes, the two functional-value grids (each value an
`std::array<Real,2>`, parametric and non-parametric part), the iteration
counts and the GCV values.  Every other member (solution, dof, estimates,
regression object, subclass data) is folded into `rest`, on which the virtual
steps act. -/
structure FPIRLS_Base (σ : Type) where
  lenS_ : Nat
  lenT_ : Nat
  current_J_values : Grid (ℝ × ℝ)
  past_J_values : Grid (ℝ × ℝ)
  n_iterations : Grid Nat
  _GCV : Grid ℝ
  rest : σ

/-- Body of `getIterations` (line 94): returns `n_iterations`. -/
def FPIRLS_Base.getIterations {σ : Type} (d : FPIRLS_Base σ) : Grid Nat := d.n_iterations

/-- Body of `getGCV` (line 92): returns `_GCV`. -/
def FPIRLS_Base.getGCV {σ : Type} (d : FPIRLS_Base σ) : Grid ℝ := d._GCV

/-- Modelled from the spec: the configuration inputs the driver consumes
(spec 6), which live in input and optimization data classes outside the
header: maximum iteration count, convergence threshold, and whether GCV is
requested.  The spec leaves the normalisation of the "relative decrease"
between two functional totals open (spec 9), so it is a parameter here, applied
to the previous and the current total. -/
structure FPIRLS_config where
  max_num_iterations : Nat
  threshold : ℝ
  relative_decrease : ℝ → ℝ → ℝ
  GCV_requested : Bool

/-- The virtual steps of `FPIRLS_Base` (lines 50-64), acting on the folded
part of the driver; a step returns `none` when it fails (singular system,
domain violation), a failure the driver does not recover from (spec 4.1, 7). -/
structure FPIRLS_steps (σ : Type) where
  prepare_weighted_regression : Nat → Nat → σ → Option σ
  solve_weighted_regression : Nat → Nat → σ → Option σ
  update_parameters : Nat → Nat → σ → Option σ
  compute_J : Nat → Nat → σ → ℝ × ℝ
  compute_GCV : Nat → Nat → σ → ℝ
  additional_estimates : σ → σ

/-- Steps 1, 2 and 3 in sequence at `(s,t)`; the first failure ends the
sequence. -/
def FPIRLS_steps.cycle {σ : Type} (P : FPIRLS_steps σ) (s t : Nat) (x : σ) : Option σ :=
  ((P.prepare_weighted_regression s t x).bind (P.solve_weighted_regression s t)).bind
    (P.update_parameters s t)

/-- One evaluation of the stopping criterion: the grid point and the driver
state it was evaluated on. -/
structure FPIRLS_check (σ : Type) where
  s : Nat
  t : Nat
  state : FPIRLS_Base σ

namespace FPIRLS_Base

/-- Modelled from the spec: the constructor body is not in the header.  The
grid containers are created for the whole grid (spec 3), no iteration has run,
and `_GCV` holds `-1` until a GCV is computed (comment of `getGCV`, line 91).
The initial functional value `J0` is not fixed by the spec and is a parameter. -/
def init {σ : Type} (lenS lenT : Nat) (J0 : ℝ × ℝ) (rest : σ) : FPIRLS_Base σ :=
  ⟨lenS, lenT, fun _ _ => J0, fun _ _ => J0, fun _ _ => 0, fun _ _ => -1, rest⟩

/-- Sum of the parametric and the non-parametric part of a functional value. -/
def total (J : ℝ × ℝ) : ℝ := J.1 + J.2

/-- Modelled from the spec: the body of `stopping_criterion` is not in the
header.  Spec 4.1: true when the iteration count at `(s,t)` exceeds the
configured maximum, or the relative decrease between the last two recorded
functional totals falls below the configured threshold. -/
noncomputable def stopping_criterion {σ : Type} (cfg : FPIRLS_config) (d : FPIRLS_Base σ)
    (s t : Nat) : Bool :=
  decide (cfg.max_num_iterations < d.n_iterations s t) ||
    decide (cfg.relative_decrease (total (d.past_J_values s t))
      (total (d.current_J_values s t)) < cfg.threshold)

/-- Modelled from the spec: one full cycle at `(s,t)` (spec 4.1): Step 1
prepare, Step 2 solve, Step 3 update; the new functional value is recorded,
the former current value becoming the previous one, and the cycle is counted.
A failing step makes the cycle fail. -/
def one_cycle {σ : Type} (P : FPIRLS_steps σ) (s t : Nat) (d : FPIRLS_Base σ) :
    Option (FPIRLS_Base σ) :=
  match P.cycle s t d.rest with
  | none => none
  | some r =>
    some { d with
      rest := r
      past_J_values := d.past_J_values.assign s t (d.current_J_values s t)
      current_J_values := d.current_J_values.assign s t (P.compute_J s t r)
      n_iterations := d.n_iterations.assign s t (d.n_iterations s t + 1) }

/-- Modelled from the spec: the inner loop of `apply` at `(s,t)` with `k`
cycles left before the iteration cap is hit (spec 2, 4.1): run a cycle, then
test the stopping criterion, and repeat until it signals or the cap is hit.
Returns every evaluation of the criterion, in order, and the final state
(`none` after a failed step). -/
noncomputable def iterate {σ : Type} (P : FPIRLS_steps σ) (cfg : FPIRLS_config) (s t : Nat) :
    Nat → FPIRLS_Base σ → List (FPIRLS_check σ) × Option (FPIRLS_Base σ)
  | 0, d => ([], some d)
  | k + 1, d =>
    match one_cycle P s t d with
    | none => ([], none)
    | some d1 =>
      if stopping_criterion cfg d1 s t then ([⟨s, t, d1⟩], some d1)
      else (⟨s, t, d1⟩ :: (iterate P cfg s t k d1).1, (iterate P cfg s t k d1).2)

/-- Modelled from the spec: the treatment of one grid point by `apply` (spec
2): the inner loop, bounded by the iteration cap, then the GCV of the grid
point, computed and stored only when GCV is requested. -/
noncomputable def run_grid_point {σ : Type} (P : FPIRLS_steps σ) (cfg : FPIRLS_config)
    (s t : Nat) (d : FPIRLS_Base σ) : List (FPIRLS_check σ) × Option (FPIRLS_Base σ) :=
  ((iterate P cfg s t (cfg.max_num_iterations - d.n_iterations s t) d).1,
    (iterate P cfg s t (cfg.max_num_iterations - d.n_iterations s t) d).2.map
      (fun d1 =>
        if cfg.GCV_requested then
          { d1 with _GCV := d1._GCV.assign s t (P.compute_GCV s t d1.rest) }
        else d1))

/-- Modelled from the spec: `apply` over a list of grid points, one after the
other; a failure stops the sweep and is handed to the caller. -/
noncomputable def apply_points {σ : Type} (P : FPIRLS_steps σ) (cfg : FPIRLS_config) :
    List (Nat × Nat) → FPIRLS_Base σ → List (FPIRLS_check σ) × Option (FPIRLS_Base σ)
  | [], d => ([], some d)
  | p :: ps, d =>
    match (run_grid_point P cfg p.1 p.2 d).2 with
    | none => ((run_grid_point P cfg p.1 p.2 d).1, none)
    | some d1 =>
      ((run_grid_point P cfg p.1 p.2 d).1 ++ (apply_points P cfg ps d1).1,
        (apply_points P cfg ps d1).2)

/-- The grid points `(s,t)`, `s < lenS`, `t < lenT`, in the order of the two
nested loops. -/
def grid_points (lenS lenT : Nat) : List (Nat × Nat) :=
  List.product (List.range lenS) (List.range lenT)

/-- Modelled from the spec: `apply` (line 79; body not in the header).  Spec
2 and 4.1: for every grid point the cycle is repeated until the stopping
criterion signals or the iteration cap is hit, then the estimates are
finalized.  Returns the evaluations of the stopping criterion and the final
driver state (`none` when a step failed). -/
noncomputable def apply {σ : Type} (P : FPIRLS_steps σ) (cfg : FPIRLS_config)
    (d : FPIRLS_Base σ) : List (FPIRLS_check σ) × Option (FPIRLS_Base σ) :=
  ((apply_points P cfg (grid_points d.lenS_ d.lenT_) d).1,
    (apply_points P cfg (grid_points d.lenS_ d.lenT_) d).2.map
      (fun d1 => { d1 with rest := P.additional_estimates d1.rest }))

/-- The non-convergence scenario of the spec (8): iteration cap `5`, threshold
`0`, GCV not requested; the decrease is measured as `|a - b| / |a|`. -/
noncomputable def scenario_config : FPIRLS_config :=
  ⟨5, 0, fun a b => |a - b| / |a|, false⟩

/-- Steps of a driver without further data: they always succeed and every
functional value is `(1, 1)`. -/
def scenario_steps : FPIRLS_steps Unit :=
  ⟨fun _ _ x => some x, fun _ _ x => some x, fun _ _ x => some x,
    fun _ _ _ => (1, 1), fun _ _ _ => 0, fun x => x⟩

end FPIRLS_Base

/-! ## Reference deviances -/

/-- The standard Poisson unit deviance `2*(x*log(x/mu) - (x - mu))`, written
with the convention `0*log(0) = 0`: the reference the Poisson `dev_function`
is compared with. -/
noncomputable def poisson_unit_deviance (mu x : ℝ) : ℝ :=
  2 * ((if x = 0 then 0 else x * Real.log (x / mu)) - (x - mu))

/-- The standard Gamma unit deviance `2*((x - mu)/mu - log(x/mu))`: the
reference the Exponential and Gamma `dev_function` are compared with. -/
noncomputable def gamma_unit_deviance (mu x : ℝ) : ℝ :=
  2 * ((x - mu) / mu - Real.log (x / mu))

/-! ## R entry points (`src/Regression/Source/Rfun_Regression_Laplace.cpp`) -/

/-- The five skeleton function templates the entry points call. -/
inductive Skeleton where
  | regression_skeleton
  | regression_skeleton_time
  | GAM_skeleton
  | GAM_skeleton_time
  | MixedEffects_skeleton
  deriving DecidableEq, Repr

/-- What an entry point returns: the result of a skeleton instantiated with
the template parameters `ORDER, mydim, ndim`, or one of the two nil values the
file uses, the macro `NILSXP` and the object `R_NilValue`. -/
inductive Dispatch where
  | skeleton (called : Skeleton) (ORDER mydim ndim : Int)
  | NILSXP
  | R_NilValue
  deriving DecidableEq, Repr

/-- Whether a value returned by an entry point is a nil sentinel. -/
def Dispatch.isNil : Dispatch → Bool
  | .skeleton _ _ _ _ => false
  | .NILSXP => true
  | .R_NilValue => true

/-- The triples the claim lists: `order` is `1` or `2` and `(mydim, ndim)` is
one of `(2,2)`, `(2,3)`, `(3,3)`, `(1,2)`. -/
def supported_triple (order mydim ndim : Int) : Bool :=
  (order = 1 ∨ order = 2) ∧
    ((mydim = 2 ∧ ndim = 2) ∨ (mydim = 2 ∧ ndim = 3) ∨ (mydim = 3 ∧ ndim = 3) ∨
      (mydim = 1 ∧ ndim = 2))

/-- Dispatch of `regression_Laplace` (lines 47-76): the chain of `if`/`else if` on
`regressionData.getOrder()`, `mydim` and `ndim`, each branch returning the call
`regression_skeleton<RegressionData, ORDER, mydim, ndim>(...)`, and the final
`return(NILSXP)`. -/
def regression_Laplace (order mydim ndim : Int) : Dispatch :=
  if order = 1 ∧ mydim = 2 ∧ ndim = 2 then .skeleton .regression_skeleton 1 2 2
  else if order = 2 ∧ mydim = 2 ∧ ndim = 2 then .skeleton .regression_skeleton 2 2 2
  else if order = 1 ∧ mydim = 2 ∧ ndim = 3 then .skeleton .regression_skeleton 1 2 3
  else if order = 2 ∧ mydim = 2 ∧ ndim = 3 then .skeleton .regression_skeleton 2 2 3
  else if order = 1 ∧ mydim = 3 ∧ ndim = 3 then .skeleton .regression_skeleton 1 3 3
  else if order = 2 ∧ mydim = 3 ∧ ndim = 3 then .skeleton .regression_skeleton 2 3 3
  else if order = 1 ∧ mydim = 1 ∧ ndim = 2 then .skeleton .regression_skeleton 1 1 2
  else if order = 2 ∧ mydim = 1 ∧ ndim = 2 then .skeleton .regression_skeleton 2 1 2
  else .NILSXP

/-- Dispatch of `regression_Laplace_time` (lines 117-147): the chain of `if`/`else if` on
`regressionData.getOrder()`, `mydim` and `ndim`, each branch returning the call
`regression_skeleton_time<RegressionData, ORDER, mydim, ndim>(...)`, and the final
`return(NILSXP)`. -/
def regression_Laplace_time (order mydim ndim : Int) : Dispatch :=
  if order = 1 ∧ mydim = 2 ∧ ndim = 2 then .skeleton .regression_skeleton_time 1 2 2
  else if order = 2 ∧ mydim = 2 ∧ ndim = 2 then .skeleton .regression_skeleton_time 2 2 2
  else if order = 1 ∧ mydim = 2 ∧ ndim = 3 then .skeleton .regression_skeleton_time 1 2 3
  else if order = 2 ∧ mydim = 2 ∧ ndim = 3 then .skeleton .regression_skeleton_time 2 2 3
  else if order = 1 ∧ mydim = 3 ∧ ndim = 3 then .skeleton .regression_skeleton_time 1 3 3
  else if order = 2 ∧ mydim = 3 ∧ ndim = 3 then .skeleton .regression_skeleton_time 2 3 3
  else if order = 1 ∧ mydim = 1 ∧ ndim = 2 then .skeleton .regression_skeleton_time 1 1 2
  else if order = 2 ∧ mydim = 1 ∧ ndim = 2 then .skeleton .regression_skeleton_time 2 1 2
  else .NILSXP

/-- Dispatch of `gam_Laplace` (lines 184-216): the chain of `if`/`else if` on
`regressionData.getOrder()`, `mydim` and `ndim`, each branch returning the call
`GAM_skeleton<GAMDataLaplace, ORDER, mydim, ndim>(...)`, and the final
`return(R_NilValue)`. -/
def gam_Laplace (order mydim ndim : Int) : Dispatch :=
  if order = 1 ∧ mydim = 2 ∧ ndim = 2 then .skeleton .GAM_skeleton 1 2 2
  else if order = 2 ∧ mydim = 2 ∧ ndim = 2 then .skeleton .GAM_skeleton 2 2 2
  else if order = 1 ∧ mydim = 2 ∧ ndim = 3 then .skeleton .GAM_skeleton 1 2 3
  else if order = 2 ∧ mydim = 2 ∧ ndim = 3 then .skeleton .GAM_skeleton 2 2 3
  else if order = 1 ∧ mydim = 3 ∧ ndim = 3 then .skeleton .GAM_skeleton 1 3 3
  else if order = 2 ∧ mydim = 3 ∧ ndim = 3 then .skeleton .GAM_skeleton 2 3 3
  else if order = 1 ∧ mydim = 1 ∧ ndim = 2 then .skeleton .GAM_skeleton 1 1 2
  else if order = 2 ∧ mydim = 1 ∧ ndim = 2 then .skeleton .GAM_skeleton 2 1 2
  else .R_NilValue

/-- Dispatch of `gam_Laplace_time` (lines 260-295): the chain of `if`/`else if` on
`regressionData.getOrder()`, `mydim` and `ndim`, each branch returning the call
`GAM_skeleton_time<GAMDataLaplace, ORDER, mydim, ndim>(...)`, and the final
`return(NILSXP)`. -/
def gam_Laplace_time (order mydim ndim : Int) : Dispatch :=
  if order = 1 ∧ mydim = 2 ∧ ndim = 2 then .skeleton .GAM_skeleton_time 1 2 2
  else if order = 2 ∧ mydim = 2 ∧ ndim = 2 then .skeleton .GAM_skeleton_time 2 2 2
  else if order = 1 ∧ mydim = 2 ∧ ndim = 3 then .skeleton .GAM_skeleton_time 1 2 3
  else if order = 2 ∧ mydim = 2 ∧ ndim = 3 then .skeleton .GAM_skeleton_time 2 2 3
  else if order = 1 ∧ mydim = 3 ∧ ndim = 3 then .skeleton .GAM_skeleton_time 1 3 3
  else if order = 2 ∧ mydim = 3 ∧ ndim = 3 then .skeleton .GAM_skeleton_time 2 3 3
  else if order = 1 ∧ mydim = 1 ∧ ndim = 2 then .skeleton .GAM_skeleton_time 1 1 2
  else if order = 2 ∧ mydim = 1 ∧ ndim = 2 then .skeleton .GAM_skeleton_time 2 1 2
  else .NILSXP

/-- Dispatch of `MixedEffects_Laplace` (lines 332-368): the chain of `if`/`else if` on
`regressionData.getOrder()`, `mydim` and `ndim`, each branch returning the call
`MixedEffects_skeleton<MixedEffectsDataLaplace, ORDER, mydim, ndim>(...)`, and the final
`return(R_NilValue)`. -/
def MixedEffects_Laplace (order mydim ndim : Int) : Dispatch :=
  if order = 1 ∧ mydim = 2 ∧ ndim = 2 then .skeleton .MixedEffects_skeleton 1 2 2
  else if order = 2 ∧ mydim = 2 ∧ ndim = 2 then .skeleton .MixedEffects_skeleton 2 2 2
  else if order = 1 ∧ mydim = 2 ∧ ndim = 3 then .skeleton .MixedEffects_skeleton 1 2 3
  else if order = 2 ∧ mydim = 2 ∧ ndim = 3 then .skeleton .MixedEffects_skeleton 2 2 3
  else if order = 1 ∧ mydim = 3 ∧ ndim = 3 then .skeleton .MixedEffects_skeleton 1 3 3
  else if order = 2 ∧ mydim = 3 ∧ ndim = 3 then .skeleton .MixedEffects_skeleton 2 3 3
  else if order = 1 ∧ mydim = 1 ∧ ndim = 2 then .skeleton .MixedEffects_skeleton 1 1 2
  else if order = 2 ∧ mydim = 1 ∧ ndim = 2 then .skeleton .MixedEffects_skeleton 2 1 2
  else .R_NilValue

/-! ## Shared analytic facts -/

/-- The gap `r - 1 - log r` is non-negative for positive `r`. -/
theorem sub_one_sub_log_nonneg {r : ℝ} (hr : 0 < r) : 0 ≤ r - 1 - Real.log r := by
  have h := Real.log_le_sub_one_of_pos hr
  linarith

/-- The gap `r - 1 - log r` vanishes only at `r = 1`. -/
theorem sub_one_sub_log_eq_zero_iff {r : ℝ} (hr : 0 < r) :
    r - 1 - Real.log r = 0 ↔ r = 1 := by
  constructor
  · intro h
    by_contra hne
    have hlt := Real.log_lt_sub_one_of_pos hr hne
    linarith
  · rintro rfl
    simp

/-- The Poisson `x > 0` branch, rewritten through the gap at `mu / x`. -/
theorem poisson_branch_eq {mu x : ℝ} (hmu : 0 < mu) (hx : 0 < x) :
    x * Real.log (x / mu) - (x - mu) = x * (mu / x - 1 - Real.log (mu / x)) := by
  have hx0 : x ≠ 0 := ne_of_gt hx
  have hm0 : mu ≠ 0 := ne_of_gt hmu
  rw [Real.log_div hx0 hm0, Real.log_div hm0 hx0]
  field_simp
  ring

/-- The Exponential/Gamma deviance body, rewritten through the gap at `x / mu`. -/
theorem reciprocal_dev_eq {mu x : ℝ} (hmu : 0 < mu) :
    2 * (((x - mu) / mu) - Real.log (x / mu)) = 2 * (x / mu - 1 - Real.log (x / mu)) := by
  have hm0 : mu ≠ 0 := ne_of_gt hmu
  field_simp

/-! ## Link round trips -/

/-- C1: for the Bernoulli family `inv_link (link mu) = mu` for every mean
`mu` with `0 < mu < 1`. -/
theorem bernoulli_inv_link_link (mu : ℝ) (h0 : 0 < mu) (h1 : mu < 1) :
    FPIRLS_Bernoulli.inv_link (FPIRLS_Bernoulli.link mu) = mu := by
  have h1m : 0 < 1 - mu := by linarith
  have hq : 0 < mu / (1 - mu) := div_pos h0 h1m
  unfold FPIRLS_Bernoulli.inv_link FPIRLS_Bernoulli.link
  rw [Real.exp_neg, Real.exp_log hq]
  field_simp

/-- The Bernoulli round trip at the mean `1/2`. -/
theorem bernoulli_inv_link_link_witness :
    (0 : ℝ) < 1 / 2 ∧ (1 / 2 : ℝ) < 1 ∧
    FPIRLS_Bernoulli.inv_link (FPIRLS_Bernoulli.link (1 / 2)) = 1 / 2 :=
  ⟨by norm_num, by norm_num, bernoulli_inv_link_link (1 / 2) (by norm_num) (by norm_num)⟩

/-- C2: for the Poisson family `inv_link (link mu) = mu` for every mean
`mu > 0`. -/
theorem poisson_inv_link_link (mu : ℝ) (h0 : 0 < mu) :
    FPIRLS_Poisson.inv_link (FPIRLS_Poisson.link mu) = mu := by
  unfold FPIRLS_Poisson.inv_link FPIRLS_Poisson.link
  exact Real.exp_log h0

/-- The Poisson round trip at the mean `3`. -/
theorem poisson_inv_link_link_witness :
    (0 : ℝ) < 3 ∧ FPIRLS_Poisson.inv_link (FPIRLS_Poisson.link 3) = 3 :=
  ⟨by norm_num, poisson_inv_link_link 3 (by norm_num)⟩

/-- C3: for the Exponential and the Gamma family `inv_link (link mu) = mu`
for every mean `mu > 0`. -/
theorem exponential_gamma_inv_link_link (mu : ℝ) (h0 : 0 < mu) :
    FPIRLS_Exponential.inv_link (FPIRLS_Exponential.link mu) = mu ∧
    FPIRLS_Gamma.inv_link (FPIRLS_Gamma.link mu) = mu := by
  have hne : mu ≠ 0 := ne_of_gt h0
  constructor
  · unfold FPIRLS_Exponential.inv_link FPIRLS_Exponential.link
    field_simp
  · unfold FPIRLS_Gamma.inv_link FPIRLS_Gamma.link
    field_simp

/-- The Exponential and Gamma round trips at the mean `2`. -/
theorem exponential_gamma_inv_link_link_witness :
    (0 : ℝ) < 2 ∧
    FPIRLS_Exponential.inv_link (FPIRLS_Exponential.link 2) = 2 ∧
    FPIRLS_Gamma.inv_link (FPIRLS_Gamma.link 2) = 2 :=
  ⟨by norm_num, exponential_gamma_inv_link_link 2 (by norm_num)⟩

/-! ## Deviance: sign -/

/-- C4: for the Bernoulli family `dev_function mu x ≥ 0` for every mean `mu`
with `0 < mu < 1` and every observed value `x`. -/
theorem bernoulli_dev_function_nonneg (mu x : ℝ) (h0 : 0 < mu) (h1 : mu < 1) :
    0 ≤ FPIRLS_Bernoulli.dev_function mu x := by
  have h1m : 0 < 1 - mu := by linarith
  unfold FPIRLS_Bernoulli.dev_function
  split_ifs with hx
  · have h : (1 : ℝ) ≤ 1 / (1 - mu) := one_le_one_div h1m (by linarith)
    have := Real.log_nonneg h
    linarith
  · have h : (1 : ℝ) ≤ 1 / mu := one_le_one_div h0 (le_of_lt h1)
    have := Real.log_nonneg h
    linarith

/-- The Bernoulli deviance is non-negative at mean `1/4`, observation `1`. -/
theorem bernoulli_dev_function_nonneg_witness :
    (0 : ℝ) < 1 / 4 ∧ (1 / 4 : ℝ) < 1 ∧ 0 ≤ FPIRLS_Bernoulli.dev_function (1 / 4) 1 :=
  ⟨by norm_num, by norm_num,
    bernoulli_dev_function_nonneg (1 / 4) 1 (by norm_num) (by norm_num)⟩

/-- Real-number reading, rounding not modelled: for the Poisson family
`dev_function mu x ≥ 0` for every mean
`mu > 0` and every observed value `x`, on both branches of the conditional. -/
theorem poisson_dev_function_nonneg (mu x : ℝ) (h0 : 0 < mu) :
    0 ≤ FPIRLS_Poisson.dev_function mu x := by
  unfold FPIRLS_Poisson.dev_function
  split_ifs with hx
  · rw [poisson_branch_eq h0 hx]
    exact mul_nonneg (le_of_lt hx) (sub_one_sub_log_nonneg (div_pos h0 hx))
  · exact le_of_lt h0

/-- The Poisson deviance is non-negative at mean `2`, observation `5`. -/
theorem poisson_dev_function_nonneg_witness :
    (0 : ℝ) < 2 ∧ 0 ≤ FPIRLS_Poisson.dev_function 2 5 :=
  ⟨by norm_num, poisson_dev_function_nonneg 2 5 (by norm_num)⟩

/-- Real-number reading, rounding not modelled: for the Exponential and the
Gamma family
`dev_function mu x = 2*((x - mu)/mu - log(x/mu))` is `≥ 0` for every mean
`mu > 0` and every observed value `x > 0`. -/
theorem exponential_gamma_dev_function_nonneg (mu x : ℝ) (h0 : 0 < mu) (hx : 0 < x) :
    (FPIRLS_Exponential.dev_function mu x = 2 * ((x - mu) / mu - Real.log (x / mu)) ∧
      0 ≤ FPIRLS_Exponential.dev_function mu x) ∧
    (FPIRLS_Gamma.dev_function mu x = 2 * ((x - mu) / mu - Real.log (x / mu)) ∧
      0 ≤ FPIRLS_Gamma.dev_function mu x) := by
  have hgap := sub_one_sub_log_nonneg (div_pos hx h0)
  refine ⟨⟨rfl, ?_⟩, ⟨rfl, ?_⟩⟩
  · unfold FPIRLS_Exponential.dev_function
    rw [reciprocal_dev_eq h0]
    linarith
  · unfold FPIRLS_Gamma.dev_function
    rw [reciprocal_dev_eq h0]
    linarith

/-- The Exponential and Gamma deviances at mean `2`, observation `3`. -/
theorem exponential_gamma_dev_function_nonneg_witness :
    (0 : ℝ) < 2 ∧ (0 : ℝ) < 3 ∧
    (FPIRLS_Exponential.dev_function 2 3 = 2 * ((3 - 2) / 2 - Real.log (3 / 2)) ∧
      0 ≤ FPIRLS_Exponential.dev_function 2 3) ∧
    (FPIRLS_Gamma.dev_function 2 3 = 2 * ((3 - 2) / 2 - Real.log (3 / 2)) ∧
      0 ≤ FPIRLS_Gamma.dev_function 2 3) :=
  ⟨by norm_num, by norm_num,
    exponential_gamma_dev_function_nonneg 2 3 (by norm_num) (by norm_num)⟩

/-! ## Deviance: zeros -/

/-- C7 (as stated, refuted): at the mean `1/2`, inside the valid range, the
Bernoulli deviance of the observation `x = mu = 1/2` is `2 * log 2`, which
is not zero. -/
theorem bernoulli_dev_function_self_counterexample :
    (0 : ℝ) < 1 / 2 ∧ (1 / 2 : ℝ) < 1 ∧
    FPIRLS_Bernoulli.dev_function (1 / 2) (1 / 2) = 2 * Real.log 2 ∧
    FPIRLS_Bernoulli.dev_function (1 / 2) (1 / 2) ≠ 0 := by
  have hval : FPIRLS_Bernoulli.dev_function (1 / 2) (1 / 2) = 2 * Real.log 2 := by
    unfold FPIRLS_Bernoulli.dev_function
    rw [if_neg (by norm_num)]
    norm_num
  have hlog : 0 < Real.log 2 := Real.log_pos (by norm_num)
  refine ⟨by norm_num, by norm_num, hval, ?_⟩
  rw [hval]
  exact ne_of_gt (by linarith)

/-- C7 (amended): for the Bernoulli family and a mean `mu` in the closed
range `0 ≤ mu ≤ 1`, `dev_function mu mu = 0` exactly when `mu` is one of the
two binary values `0` and `1`; for every `mu` with `0 < mu < 1` it equals
`2 * log (1 / mu)`, which is `> 0`, so it is never zero there. -/
theorem bernoulli_dev_function_self_eq_zero_iff (mu : ℝ) (h0 : 0 ≤ mu) (h1 : mu ≤ 1) :
    (FPIRLS_Bernoulli.dev_function mu mu = 0 ↔ (mu = 0 ∨ mu = 1)) ∧
    (0 < mu → mu < 1 →
      FPIRLS_Bernoulli.dev_function mu mu = 2 * Real.log (1 / mu) ∧
      0 < FPIRLS_Bernoulli.dev_function mu mu ∧
      FPIRLS_Bernoulli.dev_function mu mu ≠ 0) := by
  have hval : 0 < mu → FPIRLS_Bernoulli.dev_function mu mu = 2 * Real.log (1 / mu) := by
    intro hpos
    unfold FPIRLS_Bernoulli.dev_function
    rw [if_neg (ne_of_gt hpos)]
  have hpos : 0 < mu → mu < 1 → 0 < FPIRLS_Bernoulli.dev_function mu mu := by
    intro hp hlt
    rw [hval hp]
    have hgt : (1 : ℝ) < 1 / mu := by
      rw [lt_div_iff₀ hp]
      linarith
    have := Real.log_pos hgt
    linarith
  refine ⟨?_, fun hp hlt => ⟨hval hp, hpos hp hlt, ne_of_gt (hpos hp hlt)⟩⟩
  by_cases hz : mu = 0
  · subst hz
    simp [FPIRLS_Bernoulli.dev_function]
  · have hp : 0 < mu := lt_of_le_of_ne h0 (Ne.symm hz)
    constructor
    · intro h
      right
      by_contra hne
      have hlt : mu < 1 := lt_of_le_of_ne h1 hne
      exact absurd h (ne_of_gt (hpos hp hlt))
    · rintro (h | h)
      · exact absurd h hz
      · subst h
        simp [FPIRLS_Bernoulli.dev_function]

/-- The amended Bernoulli statement at the interior mean `1/4`, where the
deviance is `2 * log 4 > 0`, and at the binary mean `1`, where it is `0`. -/
theorem bernoulli_dev_function_self_eq_zero_iff_witness :
    ((0 : ℝ) ≤ 1 / 4 ∧ (1 / 4 : ℝ) ≤ 1 ∧ (0 : ℝ) < 1 / 4 ∧ (1 / 4 : ℝ) < 1 ∧
      FPIRLS_Bernoulli.dev_function (1 / 4) (1 / 4) = 2 * Real.log (1 / (1 / 4)) ∧
      0 < FPIRLS_Bernoulli.dev_function (1 / 4) (1 / 4) ∧
      FPIRLS_Bernoulli.dev_function (1 / 4) (1 / 4) ≠ 0) ∧
    ((0 : ℝ) ≤ 1 ∧ (1 : ℝ) ≤ 1 ∧
      (FPIRLS_Bernoulli.dev_function 1 1 = 0 ↔ ((1 : ℝ) = 0 ∨ (1 : ℝ) = 1)) ∧
      FPIRLS_Bernoulli.dev_function 1 1 = 0) :=
  ⟨⟨by norm_num, by norm_num, by norm_num, by norm_num,
      (bernoulli_dev_function_self_eq_zero_iff (1 / 4) (by norm_num) (by norm_num)).2
        (by norm_num) (by norm_num)⟩,
    ⟨by norm_num, by norm_num,
      (bernoulli_dev_function_self_eq_zero_iff 1 (by norm_num) (by norm_num)).1,
      (bernoulli_dev_function_self_eq_zero_iff 1 (by norm_num) (by norm_num)).1.mpr
        (Or.inr rfl)⟩⟩

/-- Real-number reading, rounding not modelled: for the Poisson family, for
every mean `mu > 0` and every observed
value `x ≥ 0`, `dev_function mu x = 0` if and only if `x = mu`. -/
theorem poisson_dev_function_eq_zero_iff (mu x : ℝ) (h0 : 0 < mu) (hx : 0 ≤ x) :
    FPIRLS_Poisson.dev_function mu x = 0 ↔ x = mu := by
  unfold FPIRLS_Poisson.dev_function
  split_ifs with hpos
  · have hx0 : x ≠ 0 := ne_of_gt hpos
    rw [poisson_branch_eq h0 hpos, mul_eq_zero,
      sub_one_sub_log_eq_zero_iff (div_pos h0 hpos), div_eq_one_iff_eq hx0]
    constructor
    · rintro (h | h)
      · exact absurd h hx0
      · exact h.symm
    · intro h
      exact Or.inr h.symm
  · have hxz : x = 0 := le_antisymm (not_lt.mp hpos) hx
    subst hxz
    constructor
    · intro h
      exact h.symm
    · intro h
      exact h.symm

/-- The Poisson zero of the deviance at mean `2`, observation `2`. -/
theorem poisson_dev_function_eq_zero_iff_witness :
    (0 : ℝ) < 2 ∧ (0 : ℝ) ≤ 2 ∧
    (FPIRLS_Poisson.dev_function 2 2 = 0 ↔ (2 : ℝ) = 2) :=
  ⟨by norm_num, by norm_num,
    poisson_dev_function_eq_zero_iff 2 2 (by norm_num) (by norm_num)⟩

/-- Real-number reading, rounding not modelled: for the Exponential and the
Gamma family, for every mean `mu > 0`
and every observed value `x > 0`, `dev_function mu x = 0` if and only if
`x = mu`. -/
theorem exponential_gamma_dev_function_eq_zero_iff (mu x : ℝ) (h0 : 0 < mu) (hx : 0 < x) :
    (FPIRLS_Exponential.dev_function mu x = 0 ↔ x = mu) ∧
    (FPIRLS_Gamma.dev_function mu x = 0 ↔ x = mu) := by
  have hm0 : mu ≠ 0 := ne_of_gt h0
  have key : 2 * (((x - mu) / mu) - Real.log (x / mu)) = 0 ↔ x = mu := by
    rw [reciprocal_dev_eq h0, mul_eq_zero,
      sub_one_sub_log_eq_zero_iff (div_pos hx h0), div_eq_one_iff_eq hm0]
    constructor
    · rintro (h | h)
      · norm_num at h
      · exact h
    · intro h
      exact Or.inr h
  exact ⟨key, key⟩

/-- The Exponential and Gamma zero of the deviance at mean `3`, observation `3`. -/
theorem exponential_gamma_dev_function_eq_zero_iff_witness :
    (0 : ℝ) < 3 ∧
    (FPIRLS_Exponential.dev_function 3 3 = 0 ↔ (3 : ℝ) = 3) ∧
    (FPIRLS_Gamma.dev_function 3 3 = 0 ↔ (3 : ℝ) = 3) :=
  ⟨by norm_num,
    exponential_gamma_dev_function_eq_zero_iff 3 3 (by norm_num) (by norm_num)⟩

/-! ## Derivative of the link -/

/-- C10: for each of the four families `link_deriv mu` is the derivative of
the real function `link` at `mu`, for every `mu` in the valid mean range
(`0 < mu < 1` for Bernoulli, `mu > 0` for Poisson, Exponential and Gamma). -/
theorem link_deriv_is_derivative (mu : ℝ) (h0 : 0 < mu) :
    (mu < 1 → HasDerivAt FPIRLS_Bernoulli.link (FPIRLS_Bernoulli.link_deriv mu) mu) ∧
    HasDerivAt FPIRLS_Poisson.link (FPIRLS_Poisson.link_deriv mu) mu ∧
    HasDerivAt FPIRLS_Exponential.link (FPIRLS_Exponential.link_deriv mu) mu ∧
    HasDerivAt FPIRLS_Gamma.link (FPIRLS_Gamma.link_deriv mu) mu := by
  have hm0 : mu ≠ 0 := ne_of_gt h0
  have hrec : HasDerivAt (fun m : ℝ => (-1) / m) (1 / (mu * mu)) mu := by
    have hd := (hasDerivAt_const mu (-1 : ℝ)).div (hasDerivAt_id mu) hm0
    convert hd using 1
    simp only [id]
    field_simp
    ring
  refine ⟨?_, ?_, hrec, hrec⟩
  · intro h1
    have h1m : 1 - mu ≠ 0 := by
      have : 0 < 1 - mu := by linarith
      exact ne_of_gt this
    have hden : HasDerivAt (fun m : ℝ => 1 - m) (-1) mu := by
      simpa using (hasDerivAt_id mu).const_sub 1
    have hquot := (hasDerivAt_id mu).div hden h1m
    have hlog := hquot.log (div_ne_zero hm0 h1m)
    show HasDerivAt (fun m : ℝ => Real.log (m / (1 - m))) (1 / (mu * (1 - mu))) mu
    convert hlog using 1
    simp only [id]
    field_simp
    ring
  · show HasDerivAt (fun m : ℝ => Real.log m) (1 / mu) mu
    simpa [one_div] using Real.hasDerivAt_log hm0

/-- The four link derivatives at the mean `1/2`, valid for every family. -/
theorem link_deriv_is_derivative_witness :
    (0 : ℝ) < 1 / 2 ∧ (1 / 2 : ℝ) < 1 ∧
    HasDerivAt FPIRLS_Bernoulli.link (FPIRLS_Bernoulli.link_deriv (1 / 2)) (1 / 2) ∧
    HasDerivAt FPIRLS_Poisson.link (FPIRLS_Poisson.link_deriv (1 / 2)) (1 / 2) ∧
    HasDerivAt FPIRLS_Exponential.link (FPIRLS_Exponential.link_deriv (1 / 2)) (1 / 2) ∧
    HasDerivAt FPIRLS_Gamma.link (FPIRLS_Gamma.link_deriv (1 / 2)) (1 / 2) :=
  ⟨by norm_num, by norm_num,
    (link_deriv_is_derivative (1 / 2) (by norm_num)).1 (by norm_num),
    (link_deriv_is_derivative (1 / 2) (by norm_num)).2⟩

/-! ## Monotonicity of the link -/

/-- Real-number reading, rounding not modelled: for each of the four families
`link` is strictly increasing on the
valid mean range: on `(0, 1)` for Bernoulli and on `(0, +∞)` for Poisson,
Exponential and Gamma, `mu1 < mu2` gives `link mu1 < link mu2`. -/
theorem link_strictly_increasing :
    StrictMonoOn FPIRLS_Bernoulli.link (Set.Ioo 0 1) ∧
    StrictMonoOn FPIRLS_Poisson.link (Set.Ioi 0) ∧
    StrictMonoOn FPIRLS_Exponential.link (Set.Ioi 0) ∧
    StrictMonoOn FPIRLS_Gamma.link (Set.Ioi 0) := by
  have hrec : ∀ a : ℝ, a ∈ Set.Ioi (0 : ℝ) → ∀ b : ℝ, b ∈ Set.Ioi (0 : ℝ) → a < b →
      (-1) / a < (-1) / b := by
    intro a ha b hb hab
    have ha0 : 0 < a := ha
    have hb0 : 0 < b := hb
    rw [div_lt_div_iff₀ ha0 hb0]
    linarith
  refine ⟨?_, ?_, hrec, hrec⟩
  · intro a ha b hb hab
    obtain ⟨ha0, ha1⟩ := ha
    obtain ⟨hb0, hb1⟩ := hb
    have hda : 0 < 1 - a := by linarith
    have hdb : 0 < 1 - b := by linarith
    unfold FPIRLS_Bernoulli.link
    apply Real.log_lt_log (div_pos ha0 hda)
    rw [div_lt_div_iff₀ hda hdb]
    nlinarith
  · intro a ha b _ hab
    unfold FPIRLS_Poisson.link
    exact Real.log_lt_log ha hab

/-! ## Positivity of the variance function -/

/-- Real-number reading, underflow not modelled: for each of the four
families `var_function mu > 0` on the valid
mean range: `mu*(1-mu)` for `0 < mu < 1` (Bernoulli), `mu` for `mu > 0`
(Poisson), `mu*mu` for `mu > 0` (Exponential and Gamma). -/
theorem var_function_pos (mu : ℝ) (h0 : 0 < mu) :
    (mu < 1 → FPIRLS_Bernoulli.var_function mu = mu * (1 - mu) ∧
      0 < FPIRLS_Bernoulli.var_function mu) ∧
    (FPIRLS_Poisson.var_function mu = mu ∧ 0 < FPIRLS_Poisson.var_function mu) ∧
    (FPIRLS_Exponential.var_function mu = mu * mu ∧
      0 < FPIRLS_Exponential.var_function mu) ∧
    (FPIRLS_Gamma.var_function mu = mu * mu ∧ 0 < FPIRLS_Gamma.var_function mu) := by
  refine ⟨fun h1 => ⟨rfl, ?_⟩, ⟨rfl, h0⟩, ⟨rfl, mul_pos h0 h0⟩, ⟨rfl, mul_pos h0 h0⟩⟩
  have h1m : 0 < 1 - mu := by linarith
  exact mul_pos h0 h1m

/-- The four variance functions at the mean `1/2`, valid for every family. -/
theorem var_function_pos_witness :
    (0 : ℝ) < 1 / 2 ∧ (1 / 2 : ℝ) < 1 ∧
    0 < FPIRLS_Bernoulli.var_function (1 / 2) ∧
    0 < FPIRLS_Poisson.var_function (1 / 2) ∧
    0 < FPIRLS_Exponential.var_function (1 / 2) ∧
    0 < FPIRLS_Gamma.var_function (1 / 2) :=
  ⟨by norm_num, by norm_num,
    ((var_function_pos (1 / 2) (by norm_num)).1 (by norm_num)).2,
    (var_function_pos (1 / 2) (by norm_num)).2.1.2,
    (var_function_pos (1 / 2) (by norm_num)).2.2.1.2,
    (var_function_pos (1 / 2) (by norm_num)).2.2.2.2⟩

/-! ## Sign of the Exponential and Gamma link -/

/-- C14 (as stated, refuted): at the mean `1` the Exponential and the Gamma
link both return `-1`, not the reciprocal `1/1 = 1`. -/
theorem exponential_gamma_link_reciprocal_counterexample :
    (0 : ℝ) < 1 ∧
    FPIRLS_Exponential.link 1 = -1 ∧ FPIRLS_Exponential.link 1 ≠ 1 / 1 ∧
    FPIRLS_Gamma.link 1 = -1 ∧ FPIRLS_Gamma.link 1 ≠ 1 / 1 := by
  unfold FPIRLS_Exponential.link FPIRLS_Gamma.link
  norm_num

/-- C14 (amended): for the Exponential and the Gamma family the link is the
negative reciprocal, `link mu = -(1/mu)` for every `mu > 0`; it is negative
there and so never equals `1/mu`. -/
theorem exponential_gamma_link_neg_reciprocal (mu : ℝ) (h0 : 0 < mu) :
    (FPIRLS_Exponential.link mu = -(1 / mu) ∧ FPIRLS_Exponential.link mu ≠ 1 / mu) ∧
    (FPIRLS_Gamma.link mu = -(1 / mu) ∧ FPIRLS_Gamma.link mu ≠ 1 / mu) := by
  have hpos : 0 < 1 / mu := one_div_pos.mpr h0
  have hval : (-1 : ℝ) / mu = -(1 / mu) := by ring
  have hne : (-1 : ℝ) / mu ≠ 1 / mu := by
    rw [hval]
    intro h
    linarith
  exact ⟨⟨hval, hne⟩, ⟨hval, hne⟩⟩

/-- The negative reciprocal link at the mean `2`. -/
theorem exponential_gamma_link_neg_reciprocal_witness :
    (0 : ℝ) < 2 ∧
    (FPIRLS_Exponential.link 2 = -(1 / 2) ∧ FPIRLS_Exponential.link 2 ≠ 1 / 2) ∧
    (FPIRLS_Gamma.link 2 = -(1 / 2) ∧ FPIRLS_Gamma.link 2 ≠ 1 / 2) :=
  ⟨by norm_num, exponential_gamma_link_neg_reciprocal 2 (by norm_num)⟩

/-! ## Poisson GAM preparation step -/

/-- C13: for the Poisson family with every initial mean equal to `mu0 > 0`,
the preparation step yields, for every observation `i`, the pseudo-observation
`log mu0 + (y_i - mu0)/mu0` and the weight `mu0`. -/
theorem poisson_prepare_weighted_regression (mu0 : ℝ) (h0 : 0 < mu0) (y : List ℝ)
    (i : Nat) (hi : i < y.length) :
    (FPIRLS_GAM.prepare_weighted_regression FPIRLS_Poisson.family
        (List.replicate y.length mu0) y).pseudoObservations_[i]? =
      some (Real.log mu0 + (y.getD i 0 - mu0) / mu0) ∧
    (FPIRLS_GAM.prepare_weighted_regression FPIRLS_Poisson.family
        (List.replicate y.length mu0) y).WeightsMatrix_[i]? = some mu0 := by
  have hne : mu0 ≠ 0 := ne_of_gt h0
  have hmu : (List.replicate y.length mu0).getD i 0 = mu0 := by
    simp [List.getD_eq_getElem?_getD, List.getElem?_replicate, hi]
  have hG : (FPIRLS_GAM.compute_G FPIRLS_Poisson.family
      (List.replicate y.length mu0)).getD i 0 = 1 / mu0 := by
    simp [FPIRLS_GAM.compute_G, FPIRLS_Poisson.family, FPIRLS_Poisson.link_deriv,
      List.getD_eq_getElem?_getD, List.getElem?_replicate, hi]
  constructor
  · simp only [FPIRLS_GAM.prepare_weighted_regression, FPIRLS_GAM.compute_pseudoObs,
      List.length_replicate, List.getElem?_map, List.getElem?_range hi, Option.map_some',
      hG, hmu]
    simp only [FPIRLS_Poisson.family, FPIRLS_Poisson.link]
    congr 1
    field_simp
  · simp only [FPIRLS_GAM.prepare_weighted_regression, FPIRLS_GAM.compute_Weights,
      List.length_replicate, List.getElem?_map, List.getElem?_range hi, Option.map_some',
      hG, hmu]
    simp only [FPIRLS_Poisson.family, FPIRLS_Poisson.var_function]
    congr 1
    field_simp
    ring

/-- The Poisson preparation step for observations `[1, 4, 7]`, mean `4`, at
the observation of index `2`. -/
theorem poisson_prepare_weighted_regression_witness :
    (0 : ℝ) < 4 ∧ 2 < ([1, 4, 7] : List ℝ).length ∧
    (FPIRLS_GAM.prepare_weighted_regression FPIRLS_Poisson.family
        (List.replicate ([1, 4, 7] : List ℝ).length 4) [1, 4, 7]).pseudoObservations_[2]? =
      some (Real.log 4 + ((([1, 4, 7] : List ℝ).getD 2 0) - 4) / 4) ∧
    (FPIRLS_GAM.prepare_weighted_regression FPIRLS_Poisson.family
        (List.replicate ([1, 4, 7] : List ℝ).length 4) [1, 4, 7]).WeightsMatrix_[2]? = some 4 :=
  ⟨by norm_num, by decide,
    poisson_prepare_weighted_regression 4 (by norm_num) [1, 4, 7] 2 (by decide)⟩

/-! ## Scale parameter passed by the family constructors -/

/-- C15: the Bernoulli, Poisson and Exponential constructors (both overloads)
always hand the GAM driver the scale-parameter flag `false` and the scale
parameter `1`, whatever mesh, data, optimization data and initial mean they
receive; the Gamma constructors forward the caller's flag and scale value
unchanged. -/
theorem family_constructors_scale_parameter {Mesh Input Opt : Type} (mesh : Mesh)
    (mesh_time : List ℝ) (inputData : Input) (optimizationData : Opt) (mu0 : List ℝ)
    (flag : Bool) (scale : ℝ) :
    ((FPIRLS_Bernoulli.FPIRLS_Bernoulli mesh inputData optimizationData
          mu0).scale_parameter_flag = false ∧
      (FPIRLS_Bernoulli.FPIRLS_Bernoulli mesh inputData optimizationData
          mu0).scale_param = 1 ∧
      (FPIRLS_Bernoulli.FPIRLS_Bernoulli_time mesh mesh_time inputData optimizationData
          mu0).scale_parameter_flag = false ∧
      (FPIRLS_Bernoulli.FPIRLS_Bernoulli_time mesh mesh_time inputData optimizationData
          mu0).scale_param = 1) ∧
    ((FPIRLS_Poisson.FPIRLS_Poisson mesh inputData optimizationData
          mu0).scale_parameter_flag = false ∧
      (FPIRLS_Poisson.FPIRLS_Poisson mesh inputData optimizationData
          mu0).scale_param = 1 ∧
      (FPIRLS_Poisson.FPIRLS_Poisson_time mesh mesh_time inputData optimizationData
          mu0).scale_parameter_flag = false ∧
      (FPIRLS_Poisson.FPIRLS_Poisson_time mesh mesh_time inputData optimizationData
          mu0).scale_param = 1) ∧
    ((FPIRLS_Exponential.FPIRLS_Exponential mesh inputData optimizationData
          mu0).scale_parameter_flag = false ∧
      (FPIRLS_Exponential.FPIRLS_Exponential mesh inputData optimizationData
          mu0).scale_param = 1 ∧
      (FPIRLS_Exponential.FPIRLS_Exponential_time mesh mesh_time inputData optimizationData
          mu0).scale_parameter_flag = false ∧
      (FPIRLS_Exponential.FPIRLS_Exponential_time mesh mesh_time inputData optimizationData
          mu0).scale_param = 1) ∧
    ((FPIRLS_Gamma.FPIRLS_Gamma mesh inputData optimizationData mu0 flag
          scale).scale_parameter_flag = flag ∧
      (FPIRLS_Gamma.FPIRLS_Gamma mesh inputData optimizationData mu0 flag
          scale).scale_param = scale ∧
      (FPIRLS_Gamma.FPIRLS_Gamma_time mesh mesh_time inputData optimizationData mu0 flag
          scale).scale_parameter_flag = flag ∧
      (FPIRLS_Gamma.FPIRLS_Gamma_time mesh mesh_time inputData optimizationData mu0 flag
          scale).scale_param = scale) :=
  ⟨⟨rfl, rfl, rfl, rfl⟩, ⟨rfl, rfl, rfl, rfl⟩, ⟨rfl, rfl, rfl, rfl⟩, ⟨rfl, rfl, rfl, rfl⟩⟩

/-! ## Iteration driver: bookkeeping lemmas -/

/-- Reading back the entry just assigned. -/
theorem Grid.assign_same {α : Type} (c : Grid α) (s t : Nat) (v : α) :
    c.assign s t v s t = v := by
  simp [Grid.assign]

/-- An assignment leaves every other entry alone. -/
theorem Grid.assign_other {α : Type} (c : Grid α) (s t i j : Nat) (v : α)
    (h : ¬ (i = s ∧ j = t)) : c.assign s t v i j = c i j := by
  simp [Grid.assign, h]

/-- What a completed cycle changes: it counts one iteration at `(s,t)`, moves
the current functional value to the previous one, and leaves the grid sizes
and the GCV values alone. -/
theorem FPIRLS_Base.one_cycle_some {σ : Type} {P : FPIRLS_steps σ} {s t : Nat}
    {d d1 : FPIRLS_Base σ} (h : FPIRLS_Base.one_cycle P s t d = some d1) :
    d1.n_iterations = d.n_iterations.assign s t (d.n_iterations s t + 1) ∧
    d1.past_J_values s t = d.current_J_values s t ∧
    d1._GCV = d._GCV ∧ d1.lenS_ = d.lenS_ ∧ d1.lenT_ = d.lenT_ := by
  unfold FPIRLS_Base.one_cycle at h
  cases hc : P.cycle s t d.rest with
  | none => simp [hc] at h
  | some r =>
    simp only [hc, Option.some.injEq] at h
    subst h
    exact ⟨rfl, Grid.assign_same _ _ _ _, rfl, rfl, rfl⟩

/-- A cycle whose three steps succeed completes. -/
theorem FPIRLS_Base.one_cycle_of_cycle {σ : Type} {P : FPIRLS_steps σ} (s t : Nat)
    (d : FPIRLS_Base σ) (hok : ∃ r, P.cycle s t d.rest = some r) :
    ∃ d1, FPIRLS_Base.one_cycle P s t d = some d1 := by
  obtain ⟨r, hr⟩ := hok
  unfold FPIRLS_Base.one_cycle
  rw [hr]
  exact ⟨_, rfl⟩

/-- Every evaluation of the stopping criterion in the inner loop at `(s,t)`
is made at `(s,t)` on the state a completed cycle has just produced. -/
theorem FPIRLS_Base.iterate_checks {σ : Type} (P : FPIRLS_steps σ) (cfg : FPIRLS_config)
    (s t : Nat) (k : Nat) (d : FPIRLS_Base σ) (c : FPIRLS_check σ)
    (hc : c ∈ (FPIRLS_Base.iterate P cfg s t k d).1) :
    c.s = s ∧ c.t = t ∧ ∃ p, FPIRLS_Base.one_cycle P s t p = some c.state := by
  induction k generalizing d with
  | zero => simp [FPIRLS_Base.iterate] at hc
  | succ k ih =>
    unfold FPIRLS_Base.iterate at hc
    cases h1 : FPIRLS_Base.one_cycle P s t d with
    | none => simp [h1] at hc
    | some d1 =>
      simp only [h1] at hc
      split_ifs at hc with hstop
      · simp only [List.mem_singleton] at hc
        subst hc
        exact ⟨rfl, rfl, d, h1⟩
      · simp only [List.mem_cons] at hc
        rcases hc with hc | hc
        · subst hc
          exact ⟨rfl, rfl, d, h1⟩
        · exact ih d1 hc

/-- Every evaluation of the stopping criterion recorded by a sweep over a list
of grid points is made on the state a completed cycle at that grid point has
just produced. -/
theorem FPIRLS_Base.apply_points_checks {σ : Type} (P : FPIRLS_steps σ)
    (cfg : FPIRLS_config) (ps : List (Nat × Nat)) (d : FPIRLS_Base σ) (c : FPIRLS_check σ)
    (hc : c ∈ (FPIRLS_Base.apply_points P cfg ps d).1) :
    ∃ p, FPIRLS_Base.one_cycle P c.s c.t p = some c.state := by
  induction ps generalizing d with
  | nil => simp [FPIRLS_Base.apply_points] at hc
  | cons q ps ih =>
    have hrun : ∀ c1 ∈ (FPIRLS_Base.run_grid_point P cfg q.1 q.2 d).1,
        ∃ p, FPIRLS_Base.one_cycle P c1.s c1.t p = some c1.state := by
      intro c1 hc1
      obtain ⟨hs, ht, p, hp⟩ := FPIRLS_Base.iterate_checks P cfg q.1 q.2 _ d c1 hc1
      exact ⟨p, by rw [hs, ht]; exact hp⟩
    unfold FPIRLS_Base.apply_points at hc
    cases h2 : (FPIRLS_Base.run_grid_point P cfg q.1 q.2 d).2 with
    | none =>
      simp only [h2] at hc
      exact hrun c hc
    | some d1 =>
      simp only [h2, List.mem_append] at hc
      rcases hc with hc | hc
      · exact hrun c hc
      · exact ih d1 hc

/-- The inner loop at `(s,t)` touches neither the grid sizes, nor the GCV
values, nor the iteration count of any other grid point. -/
theorem FPIRLS_Base.iterate_frame {σ : Type} (P : FPIRLS_steps σ) (cfg : FPIRLS_config)
    (s t : Nat) (k : Nat) (d d2 : FPIRLS_Base σ)
    (h : (FPIRLS_Base.iterate P cfg s t k d).2 = some d2) :
    d2._GCV = d._GCV ∧ d2.lenS_ = d.lenS_ ∧ d2.lenT_ = d.lenT_ ∧
    ∀ i j, ¬ (i = s ∧ j = t) → d2.n_iterations i j = d.n_iterations i j := by
  induction k generalizing d with
  | zero =>
    simp only [FPIRLS_Base.iterate, Option.some.injEq] at h
    subst h
    exact ⟨rfl, rfl, rfl, fun _ _ _ => rfl⟩
  | succ k ih =>
    unfold FPIRLS_Base.iterate at h
    cases h1 : FPIRLS_Base.one_cycle P s t d with
    | none => simp [h1] at h
    | some d1 =>
      obtain ⟨hn, -, hg, hS, hT⟩ := FPIRLS_Base.one_cycle_some h1
      have hother : ∀ i j, ¬ (i = s ∧ j = t) → d1.n_iterations i j = d.n_iterations i j := by
        intro i j hij
        rw [hn, Grid.assign_other _ _ _ _ _ _ hij]
      simp only [h1] at h
      split_ifs at h with hstop
      · simp only [Option.some.injEq] at h
        subst h
        exact ⟨hg, hS, hT, hother⟩
      · obtain ⟨hg2, hS2, hT2, hn2⟩ := ih d1 h
        exact ⟨hg2.trans hg, hS2.trans hS, hT2.trans hT,
          fun i j hij => (hn2 i j hij).trans (hother i j hij)⟩

/-- When the threshold is never met and no step fails, `k` cycles that fit
under the iteration cap all run: the inner loop ends normally, having counted
exactly `k` more iterations at `(s,t)`. -/
theorem FPIRLS_Base.iterate_never_met {σ : Type} (P : FPIRLS_steps σ) (cfg : FPIRLS_config)
    (hnever : ∀ a b, ¬ cfg.relative_decrease a b < cfg.threshold)
    (hok : ∀ s t x, ∃ r, P.cycle s t x = some r)
    (s t : Nat) (k : Nat) (d : FPIRLS_Base σ)
    (hk : d.n_iterations s t + k ≤ cfg.max_num_iterations) :
    ∃ d2, (FPIRLS_Base.iterate P cfg s t k d).2 = some d2 ∧
      d2.n_iterations s t = d.n_iterations s t + k := by
  induction k generalizing d with
  | zero => exact ⟨d, rfl, rfl⟩
  | succ k ih =>
    obtain ⟨d1, h1⟩ := FPIRLS_Base.one_cycle_of_cycle s t d (hok s t d.rest)
    obtain ⟨hn, -, -, -, -⟩ := FPIRLS_Base.one_cycle_some h1
    have hcount : d1.n_iterations s t = d.n_iterations s t + 1 := by
      rw [hn, Grid.assign_same]
    have hstop : FPIRLS_Base.stopping_criterion cfg d1 s t = false := by
      have hle : ¬ cfg.max_num_iterations < d1.n_iterations s t := by omega
      simp [FPIRLS_Base.stopping_criterion, hle, hnever]
    obtain ⟨d2, h2, hn2⟩ := ih d1 (by omega)
    refine ⟨d2, ?_, by omega⟩
    unfold FPIRLS_Base.iterate
    simp only [h1, hstop]
    exact h2

/-- When the threshold is never met and no step fails, the treatment of a
grid point whose count does not exceed the cap ends normally with the count
equal to the cap, the counts of the other grid points and the grid sizes
being left alone. -/
theorem FPIRLS_Base.run_grid_point_never_met {σ : Type} (P : FPIRLS_steps σ)
    (cfg : FPIRLS_config)
    (hnever : ∀ a b, ¬ cfg.relative_decrease a b < cfg.threshold)
    (hok : ∀ s t x, ∃ r, P.cycle s t x = some r)
    (s t : Nat) (d : FPIRLS_Base σ) (hd : d.n_iterations s t ≤ cfg.max_num_iterations) :
    ∃ d2, (FPIRLS_Base.run_grid_point P cfg s t d).2 = some d2 ∧
      d2.n_iterations s t = cfg.max_num_iterations ∧
      (∀ i j, ¬ (i = s ∧ j = t) → d2.n_iterations i j = d.n_iterations i j) := by
  obtain ⟨d1, h1, hn1⟩ := FPIRLS_Base.iterate_never_met P cfg hnever hok s t
    (cfg.max_num_iterations - d.n_iterations s t) d (by omega)
  obtain ⟨-, -, -, hother⟩ := FPIRLS_Base.iterate_frame P cfg s t _ d d1 h1
  unfold FPIRLS_Base.run_grid_point
  simp only [h1, Option.map_some']
  refine ⟨_, rfl, ?_, ?_⟩
  · split_ifs
    · show d1.n_iterations s t = cfg.max_num_iterations
      omega
    · omega
  · intro i j hij
    split_ifs
    · exact hother i j hij
    · exact hother i j hij

/-- When the threshold is never met and no step fails, a sweep over grid
points whose counts do not exceed the cap ends normally; every grid point of
the sweep ends with the count equal to the cap, every other count is left
alone. -/
theorem FPIRLS_Base.apply_points_never_met {σ : Type} (P : FPIRLS_steps σ)
    (cfg : FPIRLS_config)
    (hnever : ∀ a b, ¬ cfg.relative_decrease a b < cfg.threshold)
    (hok : ∀ s t x, ∃ r, P.cycle s t x = some r)
    (ps : List (Nat × Nat)) (d : FPIRLS_Base σ)
    (hd : ∀ q ∈ ps, d.n_iterations q.1 q.2 ≤ cfg.max_num_iterations) :
    ∃ d2, (FPIRLS_Base.apply_points P cfg ps d).2 = some d2 ∧
      (∀ q ∈ ps, d2.n_iterations q.1 q.2 = cfg.max_num_iterations) ∧
      (∀ i j, (i, j) ∉ ps → d2.n_iterations i j = d.n_iterations i j) := by
  induction ps generalizing d with
  | nil => exact ⟨d, rfl, fun q hq => absurd hq (List.not_mem_nil q), fun _ _ _ => rfl⟩
  | cons q ps ih =>
    obtain ⟨d1, h1, hq1, hother1⟩ := FPIRLS_Base.run_grid_point_never_met P cfg hnever hok
      q.1 q.2 d (hd q (List.mem_cons_self q ps))
    have hd1 : ∀ r ∈ ps, d1.n_iterations r.1 r.2 ≤ cfg.max_num_iterations := by
      intro r hr
      by_cases hrq : r.1 = q.1 ∧ r.2 = q.2
      · rw [hrq.1, hrq.2, hq1]
      · rw [hother1 r.1 r.2 hrq]
        exact hd r (List.mem_cons_of_mem q hr)
    obtain ⟨d2, h2, hin2, hout2⟩ := ih d1 hd1
    refine ⟨d2, ?_, ?_, ?_⟩
    · unfold FPIRLS_Base.apply_points
      simp only [h1]
      exact h2
    · intro r hr
      by_cases hmem : r ∈ ps
      · exact hin2 r hmem
      · have hrq : r = q := by
          rcases List.mem_cons.mp hr with h | h
          · exact h
          · exact absurd h hmem
        have hnot : (r.1, r.2) ∉ ps := hmem
        rw [hout2 r.1 r.2 hnot, hrq, hq1]
    · intro i j hij
      have hne : ¬ (i = q.1 ∧ j = q.2) := by
        rintro ⟨h1', h2'⟩
        apply hij
        have : (i, j) = q := by
          rw [h1', h2']
        rw [this]
        exact List.mem_cons_self q ps
      have hnot : (i, j) ∉ ps := fun h => hij (List.mem_cons_of_mem q h)
      rw [hout2 i j hnot, hother1 i j hne]

/-- When GCV is not requested, a sweep over grid points that ends normally
leaves the GCV values and the grid sizes as they were. -/
theorem FPIRLS_Base.apply_points_GCV {σ : Type} (P : FPIRLS_steps σ) (cfg : FPIRLS_config)
    (hreq : cfg.GCV_requested = false) (ps : List (Nat × Nat)) (d d2 : FPIRLS_Base σ)
    (h : (FPIRLS_Base.apply_points P cfg ps d).2 = some d2) :
    d2._GCV = d._GCV := by
  induction ps generalizing d with
  | nil =>
    simp only [FPIRLS_Base.apply_points, Option.some.injEq] at h
    subst h
    rfl
  | cons q ps ih =>
    unfold FPIRLS_Base.apply_points at h
    cases h1 : (FPIRLS_Base.run_grid_point P cfg q.1 q.2 d).2 with
    | none => simp [h1] at h
    | some d1 =>
      simp only [h1] at h
      have hg1 : d1._GCV = d._GCV := by
        unfold FPIRLS_Base.run_grid_point at h1
        simp only [hreq, Bool.false_eq_true, if_false, Option.map_eq_some'] at h1
        obtain ⟨d0, h0, h01⟩ := h1
        subst h01
        exact (FPIRLS_Base.iterate_frame P cfg q.1 q.2 _ d d0 h0).1
      exact (ih d1 h).trans hg1

/-- The first cycle of a grid point that is below the cap is followed by an
evaluation of the stopping criterion, which the sweep records. -/
theorem FPIRLS_Base.apply_points_first_check {σ : Type} (P : FPIRLS_steps σ)
    (cfg : FPIRLS_config) (q : Nat × Nat) (ps : List (Nat × Nat)) (d d1 : FPIRLS_Base σ)
    (hk : d.n_iterations q.1 q.2 < cfg.max_num_iterations)
    (h1 : FPIRLS_Base.one_cycle P q.1 q.2 d = some d1) :
    (⟨q.1, q.2, d1⟩ : FPIRLS_check σ) ∈ (FPIRLS_Base.apply_points P cfg (q :: ps) d).1 := by
  have hit : (⟨q.1, q.2, d1⟩ : FPIRLS_check σ) ∈
      (FPIRLS_Base.run_grid_point P cfg q.1 q.2 d).1 := by
    obtain ⟨k, hk1⟩ : ∃ k, cfg.max_num_iterations - d.n_iterations q.1 q.2 = k + 1 :=
      ⟨cfg.max_num_iterations - d.n_iterations q.1 q.2 - 1, by omega⟩
    unfold FPIRLS_Base.run_grid_point
    rw [hk1]
    unfold FPIRLS_Base.iterate
    simp only [h1]
    split_ifs <;> simp
  unfold FPIRLS_Base.apply_points
  cases h2 : (FPIRLS_Base.run_grid_point P cfg q.1 q.2 d).2 with
  | none => exact hit
  | some d2 => exact List.mem_append_left _ hit

/-- The scenario threshold `0` is never met: the measured decrease is never
negative. -/
theorem FPIRLS_Base.scenario_never_met (a b : ℝ) :
    ¬ FPIRLS_Base.scenario_config.relative_decrease a b <
      FPIRLS_Base.scenario_config.threshold := by
  show ¬ |a - b| / |a| < 0
  exact not_lt.mpr (div_nonneg (abs_nonneg _) (abs_nonneg _))

/-- The scenario steps never fail. -/
theorem FPIRLS_Base.scenario_steps_ok (s t : Nat) (x : Unit) :
    ∃ r, FPIRLS_Base.scenario_steps.cycle s t x = some r :=
  ⟨x, rfl⟩

/-! ## Stopping criterion -/

/-- C16: for every grid point `(s,t)`, `stopping_criterion` signals stop if
and only if the iteration count at `(s,t)` exceeds the configured maximum or
the relative decrease between the last two recorded functional totals
(parametric plus non-parametric part) is below the configured threshold. -/
theorem stopping_criterion_iff {σ : Type} (cfg : FPIRLS_config) (d : FPIRLS_Base σ)
    (s t : Nat) :
    FPIRLS_Base.stopping_criterion cfg d s t = true ↔
      (cfg.max_num_iterations < d.n_iterations s t ∨
        cfg.relative_decrease
            ((d.past_J_values s t).1 + (d.past_J_values s t).2)
            ((d.current_J_values s t).1 + (d.current_J_values s t).2) <
          cfg.threshold) := by
  simp [FPIRLS_Base.stopping_criterion, FPIRLS_Base.total]

/-- C17: in every run of `apply`, each evaluation of the stopping criterion
at a grid point is made on the state produced by a completed
prepare, solve, update cycle at that grid point: at least one cycle is counted
there, and the previous functional value is the one that was current before
that cycle.  This holds for every iteration cap, positive ones included. -/
theorem stopping_criterion_after_full_cycle {σ : Type} (P : FPIRLS_steps σ)
    (cfg : FPIRLS_config) (d : FPIRLS_Base σ) (c : FPIRLS_check σ)
    (hc : c ∈ (FPIRLS_Base.apply P cfg d).1) :
    ∃ p, FPIRLS_Base.one_cycle P c.s c.t p = some c.state ∧
      1 ≤ c.state.n_iterations c.s c.t ∧
      c.state.n_iterations c.s c.t = p.n_iterations c.s c.t + 1 ∧
      c.state.past_J_values c.s c.t = p.current_J_values c.s c.t := by
  obtain ⟨p, hp⟩ := FPIRLS_Base.apply_points_checks P cfg _ d c hc
  obtain ⟨hn, hpast, -, -, -⟩ := FPIRLS_Base.one_cycle_some hp
  have hcount : c.state.n_iterations c.s c.t = p.n_iterations c.s c.t + 1 := by
    rw [hn, Grid.assign_same]
  exact ⟨p, hp, by omega, hcount, hpast⟩

/-- A run of the scenario on a one-point grid records an evaluation of the
stopping criterion, made after one counted cycle. -/
theorem stopping_criterion_after_full_cycle_witness :
    ∃ c, c ∈ (FPIRLS_Base.apply FPIRLS_Base.scenario_steps FPIRLS_Base.scenario_config
        (FPIRLS_Base.init 1 1 (1, 1) ())).1 ∧
      ∃ p, FPIRLS_Base.one_cycle FPIRLS_Base.scenario_steps c.s c.t p = some c.state ∧
        1 ≤ c.state.n_iterations c.s c.t ∧
        c.state.n_iterations c.s c.t = p.n_iterations c.s c.t + 1 ∧
        c.state.past_J_values c.s c.t = p.current_J_values c.s c.t := by
  obtain ⟨d1, h1⟩ := FPIRLS_Base.one_cycle_of_cycle 0 0
    (FPIRLS_Base.init 1 1 (1, 1) ()) (FPIRLS_Base.scenario_steps_ok 0 0 ())
  have hmem : (⟨0, 0, d1⟩ : FPIRLS_check Unit) ∈
      (FPIRLS_Base.apply FPIRLS_Base.scenario_steps FPIRLS_Base.scenario_config
        (FPIRLS_Base.init 1 1 (1, 1) ())).1 :=
    FPIRLS_Base.apply_points_first_check FPIRLS_Base.scenario_steps
      FPIRLS_Base.scenario_config (0, 0) [] (FPIRLS_Base.init 1 1 (1, 1) ()) d1
      (by decide) h1
  exact ⟨⟨0, 0, d1⟩, hmem, stopping_criterion_after_full_cycle _ _ _ _ hmem⟩

/-! ## Non-convergence and the GCV sentinel -/

/-- C18: when the threshold is never met (as with threshold `0`) and the
iteration cap is `N`, `apply` on a freshly constructed driver ends normally,
not with an error, provided no step fails, and the iteration count reported
by `getIterations` for every grid point equals exactly `N`. -/
theorem apply_iterations_eq_cap {σ : Type} (P : FPIRLS_steps σ) (cfg : FPIRLS_config)
    (hnever : ∀ a b, ¬ cfg.relative_decrease a b < cfg.threshold)
    (hok : ∀ s t x, ∃ r, P.cycle s t x = some r)
    (lenS lenT : Nat) (J0 : ℝ × ℝ) (rest : σ) (s t : Nat) (hs : s < lenS) (ht : t < lenT) :
    ∃ final, (FPIRLS_Base.apply P cfg (FPIRLS_Base.init lenS lenT J0 rest)).2 = some final ∧
      final.getIterations s t = cfg.max_num_iterations := by
  obtain ⟨d2, h2, hin2, -⟩ := FPIRLS_Base.apply_points_never_met P cfg hnever hok
    (FPIRLS_Base.grid_points lenS lenT) (FPIRLS_Base.init lenS lenT J0 rest)
    (fun _ _ => Nat.zero_le _)
  have hmem : (s, t) ∈ FPIRLS_Base.grid_points lenS lenT := by
    unfold FPIRLS_Base.grid_points
    exact List.mem_product.mpr ⟨List.mem_range.mpr hs, List.mem_range.mpr ht⟩
  have h2a : (FPIRLS_Base.apply_points P cfg
      (FPIRLS_Base.grid_points (FPIRLS_Base.init lenS lenT J0 rest).lenS_
        (FPIRLS_Base.init lenS lenT J0 rest).lenT_)
      (FPIRLS_Base.init lenS lenT J0 rest)).2 = some d2 := h2
  unfold FPIRLS_Base.apply
  simp only [h2a, Option.map_some']
  exact ⟨_, rfl, hin2 (s, t) hmem⟩

/-- The non-convergence scenario: threshold `0`, cap `5`, one grid point; the
run ends normally with exactly `5` iterations reported. -/
theorem apply_iterations_eq_cap_witness :
    FPIRLS_Base.scenario_config.threshold = 0 ∧
    FPIRLS_Base.scenario_config.max_num_iterations = 5 ∧
    (∀ a b, ¬ FPIRLS_Base.scenario_config.relative_decrease a b <
      FPIRLS_Base.scenario_config.threshold) ∧
    ∃ final, (FPIRLS_Base.apply FPIRLS_Base.scenario_steps FPIRLS_Base.scenario_config
        (FPIRLS_Base.init 1 1 (1, 1) ())).2 = some final ∧
      final.getIterations 0 0 = 5 :=
  ⟨rfl, rfl, FPIRLS_Base.scenario_never_met,
    apply_iterations_eq_cap FPIRLS_Base.scenario_steps FPIRLS_Base.scenario_config
      FPIRLS_Base.scenario_never_met FPIRLS_Base.scenario_steps_ok 1 1 (1, 1) () 0 0
      (by decide) (by decide)⟩

/-- C20: when GCV is not requested, so that no GCV is computed at any grid
point, the value `getGCV` returns after `apply` on a freshly constructed
driver is the sentinel `-1` at every grid point. -/
theorem getGCV_sentinel {σ : Type} (P : FPIRLS_steps σ) (cfg : FPIRLS_config)
    (hreq : cfg.GCV_requested = false)
    (lenS lenT : Nat) (J0 : ℝ × ℝ) (rest : σ) (final : FPIRLS_Base σ)
    (hfinal : (FPIRLS_Base.apply P cfg (FPIRLS_Base.init lenS lenT J0 rest)).2 = some final)
    (s t : Nat) (_hs : s < lenS) (_ht : t < lenT) :
    final.getGCV s t = -1 := by
  unfold FPIRLS_Base.apply at hfinal
  simp only [Option.map_eq_some'] at hfinal
  obtain ⟨d2, h2, hfin⟩ := hfinal
  have hg := FPIRLS_Base.apply_points_GCV P cfg hreq _ _ d2 h2
  subst hfin
  show d2._GCV s t = -1
  rw [hg]
  rfl

/-- The scenario requests no GCV: after its run on a one-point grid `getGCV`
returns `-1` there. -/
theorem getGCV_sentinel_witness :
    FPIRLS_Base.scenario_config.GCV_requested = false ∧
    ∃ final, (FPIRLS_Base.apply FPIRLS_Base.scenario_steps FPIRLS_Base.scenario_config
        (FPIRLS_Base.init 1 1 (1, 1) ())).2 = some final ∧
      final.getGCV 0 0 = -1 := by
  obtain ⟨d2, h2, -, -⟩ := FPIRLS_Base.apply_points_never_met FPIRLS_Base.scenario_steps
    FPIRLS_Base.scenario_config FPIRLS_Base.scenario_never_met FPIRLS_Base.scenario_steps_ok
    (FPIRLS_Base.grid_points 1 1) (FPIRLS_Base.init 1 1 (1, 1) ())
    (fun _ _ => Nat.zero_le _)
  have hfinal : (FPIRLS_Base.apply FPIRLS_Base.scenario_steps FPIRLS_Base.scenario_config
      (FPIRLS_Base.init 1 1 (1, 1) ())).2 =
      some { d2 with rest := FPIRLS_Base.scenario_steps.additional_estimates d2.rest } := by
    have h2a : (FPIRLS_Base.apply_points FPIRLS_Base.scenario_steps
        FPIRLS_Base.scenario_config
        (FPIRLS_Base.grid_points (FPIRLS_Base.init 1 1 ((1 : ℝ), (1 : ℝ)) ()).lenS_
          (FPIRLS_Base.init 1 1 ((1 : ℝ), (1 : ℝ)) ()).lenT_)
        (FPIRLS_Base.init 1 1 (1, 1) ())).2 = some d2 := h2
    unfold FPIRLS_Base.apply
    simp only [h2a, Option.map_some']
  exact ⟨rfl, _, hfinal,
    getGCV_sentinel FPIRLS_Base.scenario_steps FPIRLS_Base.scenario_config rfl 1 1 (1, 1) ()
      _ hfinal 0 0 (by decide) (by decide)⟩

/-! ## Canonical links and the IRLS weight -/

/-- Real-number reading, rounding not modelled: for each of the four families
and every `mu` in the valid mean range,
`link_deriv mu * var_function mu = 1`, so the IRLS weight
`1/(link_deriv mu ^ 2 * var_function mu)` equals `var_function mu`:
`mu*(1-mu)` for Bernoulli, `mu` for Poisson, `mu*mu` for Exponential and
Gamma. -/
theorem link_deriv_mul_var_function (mu : ℝ) (h0 : 0 < mu) :
    (mu < 1 →
      FPIRLS_Bernoulli.link_deriv mu * FPIRLS_Bernoulli.var_function mu = 1 ∧
      1 / (FPIRLS_Bernoulli.link_deriv mu ^ 2 * FPIRLS_Bernoulli.var_function mu) =
        FPIRLS_Bernoulli.var_function mu ∧
      FPIRLS_Bernoulli.var_function mu = mu * (1 - mu)) ∧
    (FPIRLS_Poisson.link_deriv mu * FPIRLS_Poisson.var_function mu = 1 ∧
      1 / (FPIRLS_Poisson.link_deriv mu ^ 2 * FPIRLS_Poisson.var_function mu) =
        FPIRLS_Poisson.var_function mu ∧
      FPIRLS_Poisson.var_function mu = mu) ∧
    (FPIRLS_Exponential.link_deriv mu * FPIRLS_Exponential.var_function mu = 1 ∧
      1 / (FPIRLS_Exponential.link_deriv mu ^ 2 * FPIRLS_Exponential.var_function mu) =
        FPIRLS_Exponential.var_function mu ∧
      FPIRLS_Exponential.var_function mu = mu * mu) ∧
    (FPIRLS_Gamma.link_deriv mu * FPIRLS_Gamma.var_function mu = 1 ∧
      1 / (FPIRLS_Gamma.link_deriv mu ^ 2 * FPIRLS_Gamma.var_function mu) =
        FPIRLS_Gamma.var_function mu ∧
      FPIRLS_Gamma.var_function mu = mu * mu) := by
  have hm0 : mu ≠ 0 := ne_of_gt h0
  refine ⟨?_, ⟨?_, ?_, rfl⟩, ⟨?_, ?_, rfl⟩, ⟨?_, ?_, rfl⟩⟩
  · intro h1
    have h1m : 1 - mu ≠ 0 := by
      have : 0 < 1 - mu := by linarith
      exact ne_of_gt this
    unfold FPIRLS_Bernoulli.link_deriv FPIRLS_Bernoulli.var_function
    refine ⟨?_, ?_, rfl⟩
    · field_simp
    · field_simp
      ring
  · unfold FPIRLS_Poisson.link_deriv FPIRLS_Poisson.var_function
    field_simp
  · unfold FPIRLS_Poisson.link_deriv FPIRLS_Poisson.var_function
    field_simp
    ring
  · unfold FPIRLS_Exponential.link_deriv FPIRLS_Exponential.var_function
    field_simp
  · unfold FPIRLS_Exponential.link_deriv FPIRLS_Exponential.var_function
    field_simp
    ring
  · unfold FPIRLS_Gamma.link_deriv FPIRLS_Gamma.var_function
    field_simp
  · unfold FPIRLS_Gamma.link_deriv FPIRLS_Gamma.var_function
    field_simp
    ring

/-- The canonical-link identity and the weight at the mean `1/2`, for the
four families. -/
theorem link_deriv_mul_var_function_witness :
    (0 : ℝ) < 1 / 2 ∧ (1 / 2 : ℝ) < 1 ∧
    (FPIRLS_Bernoulli.link_deriv (1 / 2) * FPIRLS_Bernoulli.var_function (1 / 2) = 1 ∧
      1 / (FPIRLS_Bernoulli.link_deriv (1 / 2) ^ 2 *
          FPIRLS_Bernoulli.var_function (1 / 2)) = FPIRLS_Bernoulli.var_function (1 / 2) ∧
      FPIRLS_Bernoulli.var_function (1 / 2) = 1 / 2 * (1 - 1 / 2)) ∧
    (FPIRLS_Poisson.link_deriv (1 / 2) * FPIRLS_Poisson.var_function (1 / 2) = 1 ∧
      1 / (FPIRLS_Poisson.link_deriv (1 / 2) ^ 2 * FPIRLS_Poisson.var_function (1 / 2)) =
        FPIRLS_Poisson.var_function (1 / 2) ∧
      FPIRLS_Poisson.var_function (1 / 2) = 1 / 2) :=
  ⟨by norm_num, by norm_num,
    (link_deriv_mul_var_function (1 / 2) (by norm_num)).1 (by norm_num),
    (link_deriv_mul_var_function (1 / 2) (by norm_num)).2.1⟩

/-! ## Reverse round trip and range of the inverse link -/

/-- Real-number reading, rounding and overflow not modelled:
`link (inv_link theta) = theta` for every real `theta` for Bernoulli
and Poisson, and for every `theta ≠ 0` for Exponential and Gamma. -/
theorem link_inv_link (theta : ℝ) :
    FPIRLS_Bernoulli.link (FPIRLS_Bernoulli.inv_link theta) = theta ∧
    FPIRLS_Poisson.link (FPIRLS_Poisson.inv_link theta) = theta ∧
    (theta ≠ 0 →
      FPIRLS_Exponential.link (FPIRLS_Exponential.inv_link theta) = theta ∧
      FPIRLS_Gamma.link (FPIRLS_Gamma.inv_link theta) = theta) := by
  refine ⟨?_, ?_, ?_⟩
  · have hE : 0 < Real.exp (-theta) := Real.exp_pos _
    have hratio : 1 / (1 + Real.exp (-theta)) / (1 - 1 / (1 + Real.exp (-theta))) =
        Real.exp theta := by
      rw [Real.exp_neg] at hE ⊢
      have hpos : 0 < Real.exp theta := Real.exp_pos _
      field_simp
    unfold FPIRLS_Bernoulli.link FPIRLS_Bernoulli.inv_link
    rw [hratio, Real.log_exp]
  · unfold FPIRLS_Poisson.link FPIRLS_Poisson.inv_link
    exact Real.log_exp theta
  · intro hne
    constructor
    · unfold FPIRLS_Exponential.link FPIRLS_Exponential.inv_link
      field_simp
    · unfold FPIRLS_Gamma.link FPIRLS_Gamma.inv_link
      field_simp

/-- The reverse round trip at the linear predictor `-3`, for the four
families. -/
theorem link_inv_link_witness :
    (-3 : ℝ) ≠ 0 ∧
    FPIRLS_Bernoulli.link (FPIRLS_Bernoulli.inv_link (-3)) = -3 ∧
    FPIRLS_Poisson.link (FPIRLS_Poisson.inv_link (-3)) = -3 ∧
    FPIRLS_Exponential.link (FPIRLS_Exponential.inv_link (-3)) = -3 ∧
    FPIRLS_Gamma.link (FPIRLS_Gamma.inv_link (-3)) = -3 :=
  ⟨by norm_num, (link_inv_link (-3)).1, (link_inv_link (-3)).2.1,
    (link_inv_link (-3)).2.2 (by norm_num)⟩

/-- Real-number reading, rounding and underflow not modelled: for Bernoulli
and Poisson `inv_link` maps every real linear predictor
into the valid mean range, `0 < 1/(1+exp(-theta)) < 1` and `exp(theta) > 0`
for every real `theta`, so a mean set to `inv_link` of a fitted value cannot
leave that range. -/
theorem inv_link_in_range (theta : ℝ) :
    (FPIRLS_Bernoulli.inv_link theta = 1 / (1 + Real.exp (-theta)) ∧
      0 < FPIRLS_Bernoulli.inv_link theta ∧ FPIRLS_Bernoulli.inv_link theta < 1) ∧
    (FPIRLS_Poisson.inv_link theta = Real.exp theta ∧
      0 < FPIRLS_Poisson.inv_link theta) := by
  have hE : 0 < Real.exp (-theta) := Real.exp_pos _
  have hden : 0 < 1 + Real.exp (-theta) := by linarith
  refine ⟨⟨rfl, ?_, ?_⟩, rfl, Real.exp_pos theta⟩
  · unfold FPIRLS_Bernoulli.inv_link
    exact div_pos one_pos hden
  · unfold FPIRLS_Bernoulli.inv_link
    rw [div_lt_one hden]
    linarith

/-- C24: for Exponential and Gamma `inv_link theta = -1/theta` lies in the
valid mean range (is `> 0`) if and only if `theta < 0`; for every `theta > 0`
the updated mean is negative. -/
theorem reciprocal_inv_link_sign (theta : ℝ) :
    (FPIRLS_Exponential.inv_link theta = (-1) / theta ∧
      FPIRLS_Gamma.inv_link theta = (-1) / theta) ∧
    (0 < FPIRLS_Exponential.inv_link theta ↔ theta < 0) ∧
    (0 < FPIRLS_Gamma.inv_link theta ↔ theta < 0) ∧
    (0 < theta →
      FPIRLS_Exponential.inv_link theta < 0 ∧ FPIRLS_Gamma.inv_link theta < 0) := by
  have hiff : (0 < (-1 : ℝ) / theta ↔ theta < 0) := by
    constructor
    · intro h
      by_contra hge
      have hge0 : 0 ≤ theta := not_lt.mp hge
      have : (-1 : ℝ) / theta ≤ 0 := div_nonpos_of_nonpos_of_nonneg (by norm_num) hge0
      linarith
    · intro h
      exact div_pos_of_neg_of_neg (by norm_num) h
  have hneg : 0 < theta → (-1 : ℝ) / theta < 0 := fun h =>
    div_neg_of_neg_of_pos (by norm_num) h
  exact ⟨⟨rfl, rfl⟩, hiff, hiff, fun h => ⟨hneg h, hneg h⟩⟩

/-- The sign of the reciprocal inverse link at the predictor `2`: the mean is
`-1/2`, negative. -/
theorem reciprocal_inv_link_sign_witness :
    (0 : ℝ) < 2 ∧
    FPIRLS_Exponential.inv_link 2 < 0 ∧ FPIRLS_Gamma.inv_link 2 < 0 ∧
    ¬ (0 < FPIRLS_Exponential.inv_link 2) :=
  ⟨by norm_num, ((reciprocal_inv_link_sign 2).2.2.2 (by norm_num)).1,
    ((reciprocal_inv_link_sign 2).2.2.2 (by norm_num)).2,
    fun h => absurd ((reciprocal_inv_link_sign 2).2.1.mp h) (by norm_num)⟩

/-! ## Deviance formulas against the reference deviances -/

/-- C25: for the Poisson family, for every `mu > 0` and every `x ≥ 0`,
`dev_function mu x = x*log(x/mu) - (x - mu)` with the convention
`0*log(0) = 0` (the `x ≤ 0` branch returns `mu`, which agrees with it at
`x = 0`); this is one half of the standard Poisson unit deviance, whereas the
Exponential and Gamma `dev_function` are the standard Gamma unit deviance,
factor `2` included. -/
theorem poisson_dev_function_half_deviance (mu x : ℝ) (_h0 : 0 < mu) (hx : 0 ≤ x) :
    FPIRLS_Poisson.dev_function mu x =
      (if x = 0 then 0 else x * Real.log (x / mu)) - (x - mu) ∧
    FPIRLS_Poisson.dev_function mu 0 = mu ∧
    FPIRLS_Poisson.dev_function mu x = poisson_unit_deviance mu x / 2 ∧
    FPIRLS_Exponential.dev_function mu x = gamma_unit_deviance mu x ∧
    FPIRLS_Gamma.dev_function mu x = gamma_unit_deviance mu x := by
  have hform : FPIRLS_Poisson.dev_function mu x =
      (if x = 0 then 0 else x * Real.log (x / mu)) - (x - mu) := by
    unfold FPIRLS_Poisson.dev_function
    by_cases hz : x = 0
    · subst hz
      simp
    · have hpos : x > 0 := lt_of_le_of_ne hx (Ne.symm hz)
      rw [if_pos hpos, if_neg hz]
  have hzero : FPIRLS_Poisson.dev_function mu 0 = mu := by
    unfold FPIRLS_Poisson.dev_function
    simp
  refine ⟨hform, hzero, ?_, rfl, rfl⟩
  rw [hform]
  unfold poisson_unit_deviance
  ring

/-- The Poisson deviance against the reference at mean `2`, observation `0`,
the point where the convention `0*log(0) = 0` is used. -/
theorem poisson_dev_function_half_deviance_witness :
    (0 : ℝ) < 2 ∧ (0 : ℝ) ≤ 0 ∧
    FPIRLS_Poisson.dev_function 2 0 =
      (if (0 : ℝ) = 0 then 0 else 0 * Real.log (0 / 2)) - (0 - 2) ∧
    FPIRLS_Poisson.dev_function 2 0 = 2 ∧
    FPIRLS_Poisson.dev_function 2 0 = poisson_unit_deviance 2 0 / 2 ∧
    FPIRLS_Exponential.dev_function 2 0 = gamma_unit_deviance 2 0 ∧
    FPIRLS_Gamma.dev_function 2 0 = gamma_unit_deviance 2 0 :=
  ⟨by norm_num, le_refl 0,
    poisson_dev_function_half_deviance 2 0 (by norm_num) (le_refl 0)⟩

/-- Outside the listed triples every test of `regression_Laplace` fails and the final
`return` is reached. -/
theorem regression_Laplace_unsupported (order mydim ndim : Int)
    (hP : ¬ ((order = 1 ∨ order = 2) ∧
      ((mydim = 2 ∧ ndim = 2) ∨ (mydim = 2 ∧ ndim = 3) ∨ (mydim = 3 ∧ ndim = 3) ∨
        (mydim = 1 ∧ ndim = 2)))) :
    regression_Laplace order mydim ndim = Dispatch.NILSXP := by
  simp only [regression_Laplace]
  repeat' rw [if_neg]
  all_goals (intro h; apply hP; omega)

/-- Outside the listed triples every test of `regression_Laplace_time` fails and the final
`return` is reached. -/
theorem regression_Laplace_time_unsupported (order mydim ndim : Int)
    (hP : ¬ ((order = 1 ∨ order = 2) ∧
      ((mydim = 2 ∧ ndim = 2) ∨ (mydim = 2 ∧ ndim = 3) ∨ (mydim = 3 ∧ ndim = 3) ∨
        (mydim = 1 ∧ ndim = 2)))) :
    regression_Laplace_time order mydim ndim = Dispatch.NILSXP := by
  simp only [regression_Laplace_time]
  repeat' rw [if_neg]
  all_goals (intro h; apply hP; omega)

/-- Outside the listed triples every test of `gam_Laplace` fails and the final
`return` is reached. -/
theorem gam_Laplace_unsupported (order mydim ndim : Int)
    (hP : ¬ ((order = 1 ∨ order = 2) ∧
      ((mydim = 2 ∧ ndim = 2) ∨ (mydim = 2 ∧ ndim = 3) ∨ (mydim = 3 ∧ ndim = 3) ∨
        (mydim = 1 ∧ ndim = 2)))) :
    gam_Laplace order mydim ndim = Dispatch.R_NilValue := by
  simp only [gam_Laplace]
  repeat' rw [if_neg]
  all_goals (intro h; apply hP; omega)

/-- Outside the listed triples every test of `gam_Laplace_time` fails and the final
`return` is reached. -/
theorem gam_Laplace_time_unsupported (order mydim ndim : Int)
    (hP : ¬ ((order = 1 ∨ order = 2) ∧
      ((mydim = 2 ∧ ndim = 2) ∨ (mydim = 2 ∧ ndim = 3) ∨ (mydim = 3 ∧ ndim = 3) ∨
        (mydim = 1 ∧ ndim = 2)))) :
    gam_Laplace_time order mydim ndim = Dispatch.NILSXP := by
  simp only [gam_Laplace_time]
  repeat' rw [if_neg]
  all_goals (intro h; apply hP; omega)

/-- Outside the listed triples every test of `MixedEffects_Laplace` fails and the final
`return` is reached. -/
theorem MixedEffects_Laplace_unsupported (order mydim ndim : Int)
    (hP : ¬ ((order = 1 ∨ order = 2) ∧
      ((mydim = 2 ∧ ndim = 2) ∨ (mydim = 2 ∧ ndim = 3) ∨ (mydim = 3 ∧ ndim = 3) ∨
        (mydim = 1 ∧ ndim = 2)))) :
    MixedEffects_Laplace order mydim ndim = Dispatch.R_NilValue := by
  simp only [MixedEffects_Laplace]
  repeat' rw [if_neg]
  all_goals (intro h; apply hP; omega)

/-- C27: for each of the five R entry points and every triple
`(order, mydim, ndim)`: when `order` is `1` or `2` and `(mydim, ndim)` is one
of `(2,2)`, `(2,3)`, `(3,3)`, `(1,2)`, the entry point returns the call of its
skeleton instantiated with exactly those three values; for every other triple
no skeleton runs and a nil sentinel is returned (`NILSXP` by
`regression_Laplace`, `regression_Laplace_time` and `gam_Laplace_time`,
`R_NilValue` by `gam_Laplace` and `MixedEffects_Laplace`).  So a skeleton is
invoked if and only if the triple is one of those, the same set for the five
entry points. -/
theorem entry_points_dispatch (order mydim ndim : Int) :
    (regression_Laplace order mydim ndim =
        if supported_triple order mydim ndim
        then Dispatch.skeleton Skeleton.regression_skeleton order mydim ndim
        else Dispatch.NILSXP) ∧
    (regression_Laplace_time order mydim ndim =
        if supported_triple order mydim ndim
        then Dispatch.skeleton Skeleton.regression_skeleton_time order mydim ndim
        else Dispatch.NILSXP) ∧
    (gam_Laplace order mydim ndim =
        if supported_triple order mydim ndim
        then Dispatch.skeleton Skeleton.GAM_skeleton order mydim ndim
        else Dispatch.R_NilValue) ∧
    (gam_Laplace_time order mydim ndim =
        if supported_triple order mydim ndim
        then Dispatch.skeleton Skeleton.GAM_skeleton_time order mydim ndim
        else Dispatch.NILSXP) ∧
    (MixedEffects_Laplace order mydim ndim =
        if supported_triple order mydim ndim
        then Dispatch.skeleton Skeleton.MixedEffects_skeleton order mydim ndim
        else Dispatch.R_NilValue) ∧
    ((regression_Laplace order mydim ndim).isNil = !supported_triple order mydim ndim) ∧
    ((regression_Laplace_time order mydim ndim).isNil = !supported_triple order mydim ndim) ∧
    ((gam_Laplace order mydim ndim).isNil = !supported_triple order mydim ndim) ∧
    ((gam_Laplace_time order mydim ndim).isNil = !supported_triple order mydim ndim) ∧
    ((MixedEffects_Laplace order mydim ndim).isNil = !supported_triple order mydim ndim) := by
  by_cases hs : supported_triple order mydim ndim = true
  · obtain ⟨ho, hd⟩ := of_decide_eq_true hs
    rcases ho with rfl | rfl <;>
      rcases hd with ⟨rfl, rfl⟩ | ⟨rfl, rfl⟩ | ⟨rfl, rfl⟩ | ⟨rfl, rfl⟩ <;>
      decide
  · have hP : ¬ ((order = 1 ∨ order = 2) ∧
        ((mydim = 2 ∧ ndim = 2) ∨ (mydim = 2 ∧ ndim = 3) ∨ (mydim = 3 ∧ ndim = 3) ∨
          (mydim = 1 ∧ ndim = 2))) := fun h => hs (decide_eq_true h)
    have hf : supported_triple order mydim ndim = false := Bool.eq_false_iff.mpr hs
    rw [regression_Laplace_unsupported order mydim ndim hP,
      regression_Laplace_time_unsupported order mydim ndim hP,
      gam_Laplace_unsupported order mydim ndim hP,
      gam_Laplace_time_unsupported order mydim ndim hP,
      MixedEffects_Laplace_unsupported order mydim ndim hP, hf]
    simp [Dispatch.isNil]
